import Mathlib

/-!
# CarnotAgents — verification of the iterative document-state refinement engine

Shallow embedding of the document-refinement prototypes found in this
repository, and proofs of the specified properties about them:

* `Carnot.V4` — `References/Document-Generation/code/rj_copy_document_gen_v4.txt`
  (`Cell`, `SystemState`, `UniversalSolver.solve`, `UniversalSolver._apply_changes`).
* `Carnot.V10` — `unnamed/part_010` ("Final code v10 self improving":
  `SystemState`, `UniversalSolver.solve` with its tiered correction/fallback).
* `Carnot.FP` — `unnamed/part_007` ("Final code functional": `parse_state`
  and its `TASK:` error-recovery branch).
* `Carnot.LG` — `References/Document-Generation/code/rj_copy_document_gen_langgraph_v2.txt`
  (`ProjectNode`, `SystemState`, `get_path_to_current`, the graph nodes,
  `_propagate_summaries`).

Python strings are embedded as `List Char` (`Str`), with Python's `split`,
`strip`, `startswith`, `in`, dict insertion-order semantics and exceptions
embedded explicitly; machine integers do not occur in this code.  External
collaborators (the LLM call, `json.loads`, `uuid.uuid4`) are parameters of
the embedded functions.
-/

deriving instance DecidableEq for Except

namespace Carnot

/-- Embedded Python strings: lists of characters (kernel-reducible). -/
abbrev Str := List Char

/-! ## Python string semantics -/

/-- `isPre pat s`: `pat` is a (leading) prefix of `s`; Python
`s.startswith(pat)`. -/
def isPre : Str → Str → Bool
  | [], _ => true
  | _ :: _, [] => false
  | a :: as, b :: bs => a = b && isPre as bs

/-- First occurrence of `sep` in `s`: `some (before, after)`, or `none` when
`sep` does not occur.  (`sep` is never empty in the embedded code.) -/
def breakOnFirst (sep : Str) : Str → Option (Str × Str)
  | [] => none
  | c :: rest =>
    if isPre sep (c :: rest) then some ([], (c :: rest).drop sep.length)
    else
      match breakOnFirst sep rest with
      | none => none
      | some (pre, post) => some (c :: pre, post)

/-- Python `needle in hay` (for the non-empty needles used here). -/
def containsStr (hay needle : Str) : Bool :=
  (breakOnFirst needle hay).isSome

/-- Python `s.split(sep, 1)`: at most one split, at the first occurrence. -/
def pySplit1 (s sep : Str) : List Str :=
  match breakOnFirst sep s with
  | none => [s]
  | some (pre, post) => [pre, post]

/-- Python `s.split(sep, 1)[1]`: `none` models the `IndexError` raised when
`sep` does not occur in `s`. -/
def afterSep1 (s sep : Str) : Option Str :=
  (breakOnFirst sep s).map (·.2)

/-- Split at every occurrence of a single character (Python
`s.split(c)` for a one-character separator). -/
def splitChar (c : Char) : Str → List Str
  | [] => [[]]
  | a :: rest =>
    if a = c then [] :: splitChar c rest
    else
      match splitChar c rest with
      | h :: t => (a :: h) :: t
      | [] => [[a]]

/-- Python `s.split('\n')`. -/
def pyLines (s : Str) : List Str :=
  splitChar '\n' s

/-- Python `s.split()` (split on whitespace runs, no empty pieces). -/
def pySplitWs (s : Str) : List Str :=
  (s.splitOnP Char.isWhitespace).filter (· ≠ [])

/-- Python `s.strip()`. -/
def pyStrip (s : Str) : Str :=
  ((s.dropWhile Char.isWhitespace).reverse.dropWhile Char.isWhitespace).reverse

/-- Python `s.upper()` (the embedded code only probes ASCII markers). -/
def pyUpper (s : Str) : Str :=
  s.map Char.toUpper

/-! ## Python dict semantics (insertion-ordered, unique keys) -/

/-- Python dict lookup `d[k]` as an option (first binding). -/
def lookupD {α : Type} (d : List (Str × α)) (k : Str) : Option α :=
  (d.find? (fun p => p.1 = k)).map (·.2)

/-- Python `k in d`. -/
def containsD {α : Type} (d : List (Str × α)) (k : Str) : Bool :=
  d.any (fun p => p.1 = k)

/-- Python `d[k] = v`: update in place when the key is present (insertion
order preserved), append otherwise. -/
def setD {α : Type} (d : List (Str × α)) (k : Str) (v : α) :
    List (Str × α) :=
  if containsD d k then
    d.map (fun p => if p.1 = k then (k, v) else p)
  else
    d ++ [(k, v)]

/-- Python exceptions reachable in the embedded code. -/
inductive PyErr where
  | indexError
  | nameError
  | typeError
  | keyError
  | jsonDecodeError
  | valueError
  deriving DecidableEq, Repr

/-- The `str(e)` text interpolated into error-content cells; the exact
message does not matter to any property proved here. -/
def errText : PyErr → Str
  | .indexError => "list index out of range".data
  | .nameError => "name \x27cell_id\x27 is not defined".data
  | .typeError => "Object of type TaskStatus is not JSON serializable".data
  | .keyError => "KeyError".data
  | .jsonDecodeError => "Expecting value".data
  | .valueError => "dictionary update sequence element has length 1".data

/-- Python truthiness of an optional string (`while node_id:`,
`if state.current_cell_id and ...`): `None` and `""` are falsy. -/
def truthyOpt (o : Option Str) : Bool :=
  match o with
  | none => false
  | some s => s ≠ []

/-! ## V4 — `rj_copy_document_gen_v4.txt` -/

namespace V4

/-- `Cell` dataclass (line 63).  `metadata: Dict[str, Any]` is always `{}`
in this file and is modelled as a string-valued dict. -/
structure Cell where
  id : Str
  content : Str
  references : List Str
  metadata : List (Str × Str)
  deriving DecidableEq, Repr

/-- `SystemState` dataclass (line 70).  Its `cells` field is declared
`Dict[str, Union[Cell, 'SystemState']]`, but no code in the file ever stores
a nested `SystemState`, so cells are modelled as `Cell`s. -/
structure SystemState where
  cells : List (Str × Cell)
  current_cell_id : Option Str
  metadata : List (Str × Str)
  deriving DecidableEq, Repr

/-- The initial state built by `UniversalSolver.solve` (lines 111–122). -/
def initialState (query : Str) : SystemState :=
  { cells := [("initial".data,
      { id := "initial".data, content := query, references := [], metadata := [] })]
    current_cell_id := some "initial".data
    metadata := [] }

/-- The list comprehension in `_apply_changes` (line 140):
`[line.strip() for line in response.split('\n')
  if line.strip().startswith(('-', 'SET'))]`. -/
def extractChanges (response : Str) : List Str :=
  (pyLines response).filterMap (fun line =>
    let l := pyStrip line
    if isPre "-".data l || isPre "SET".data l then some l else none)

/-- One arm of the `for change in changes` loop of `_apply_changes`
(lines 142–157), acting on the deep-copied state.  `uuids` supplies the
values of `str(uuid.uuid4())`, threaded through a counter.  `IndexError`s
from `change.split()[3]` and `change.split(":", 1)[1]` are explicit. -/
def applyChange (uuids : Nat → Str) (acc : SystemState × Nat)
    (change : Str) : Except PyErr (SystemState × Nat) :=
  let st := acc.1
  let ctr := acc.2
  if isPre "- NEW CELL:".data change then
    -- cell_id = str(uuid.uuid4()); content = change.split(":", 1)[1].strip()
    let cell_id := uuids ctr
    match afterSep1 change ":".data with
    | none => .error .indexError
    | some raw =>
        let cell : Cell :=
          { id := cell_id, content := pyStrip raw, references := [], metadata := [] }
        .ok ({ st with cells := setD st.cells cell_id cell }, ctr + 1)
  else if isPre "- MODIFY CELL".data change then
    -- cell_id = change.split()[3]; content = change.split(":", 1)[1].strip()
    match (pySplitWs change).get? 3 with
    | none => .error .indexError
    | some cell_id =>
        match afterSep1 change ":".data with
        | none => .error .indexError
        | some raw =>
            let content := pyStrip raw
            if containsD st.cells cell_id then
              .ok ({ st with cells := st.cells.map (fun p =>
                       if p.1 = cell_id then (p.1, { p.2 with content := content })
                       else p) }, ctr)
            else
              .ok (st, ctr)
  else if isPre "SET CURRENT:".data change then
    match afterSep1 change ":".data with
    | none => .error .indexError
    | some raw =>
        let cell_id := pyStrip raw
        if containsD st.cells cell_id then
          .ok ({ st with current_cell_id := some cell_id }, ctr)
        else
          .ok (st, ctr)
  else
    .ok (st, ctr)

/-- The `for change in changes` loop of `_apply_changes`, over an already
extracted change list. -/
def applyChangeList (uuids : Nat → Str) (acc : SystemState × Nat)
    (changes : List Str) : Except PyErr (SystemState × Nat) :=
  changes.foldlM (applyChange uuids) acc

/-- `UniversalSolver._apply_changes` (lines 137–159): deep-copy the state
(value semantics here), then run the change loop; a raised exception
propagates to the caller. -/
def applyChanges (uuids : Nat → Str) (ctr : Nat) (state : SystemState)
    (response : Str) : Except PyErr (SystemState × Nat) :=
  applyChangeList uuids (state, ctr) (extractChanges response)

/-- `DEFAULT_SOLVER_CONFIG["current_focus_template"].format(...)`
(lines 46–50). -/
def currentFocusFmt (cell_id content : Str) : Str :=
  "\n        CURRENT FOCUS:\n        Cell ".data ++ cell_id
    ++ ":\n        ".data ++ content ++ "\n    ".data

/-- `DEFAULT_SOLVER_CONFIG["cell_format_template"].format(...)`
(lines 52–55). -/
def cellFmt (cell_id content : Str) : Str :=
  "\n        Cell ".data ++ cell_id ++ ":\n        ".data ++ content
    ++ "\n    ".data

/-- `DEFAULT_SOLVER_CONFIG["state_format_template"].format(...)`
(lines 30–37). -/
def stateFmt (current_focus all_cells : Str) : Str :=
  "\n        CURRENT SYSTEM STATE\n        ===================\n        ".data
    ++ current_focus ++ "\n        \n        ALL CELLS:\n        ".data
    ++ all_cells ++ "\n    ".data

/-- `DEFAULT_SOLVER_CONFIG["process_prompt"]` (lines 6–28). -/
def processPrompt : Str :=
  ("\n        You are a universal problem solver. Here\x27s our suggested process:\n\n"
   ++ "        1. Analyze the problem and break into subproblems if needed\n"
   ++ "        2. Plan and document your approach\n"
   ++ "        3. Execute one clear step at a time\n"
   ++ "        4. Verify results and maintain organization\n\n"
   ++ "        Based on the current state, please:\n"
   ++ "        1. Analyze the situation\n"
   ++ "        2. Decide the next step\n"
   ++ "        3. Specify EXACT changes to make to the system\n\n"
   ++ "        Format your response as:\n"
   ++ "        REASONING: Your analysis and decision-making process\n"
   ++ "        CHANGES: List each change in this format:\n"
   ++ "        - NEW CELL: <content>\n"
   ++ "        - MODIFY CELL <id>: <new_content>\n"
   ++ "        - SET CURRENT: <cell_id>\n"
   ++ "        STATUS: Either \"CONTINUE\" or \"SOLVED\"\n\n"
   ++ "        Be precise - your changes will be applied exactly as specified.\n    ").data

/-- `format_state(state, config)` (lines 76–102), at `DEFAULT_SOLVER_CONFIG`
(the configuration under which `solve` is specified). -/
def formatState (state : SystemState) : Str :=
  let current_focus :=
    match state.current_cell_id with
    | some cid =>
        if truthyOpt state.current_cell_id && containsD state.cells cid then
          match lookupD state.cells cid with
          | some cur => currentFocusFmt cid cur.content
          | none => []
        else []
    | none => []
  let all_cells := state.cells.filterMap (fun p =>
    if some p.1 = state.current_cell_id then none
    else some (cellFmt p.1 p.2.content))
  stateFmt current_focus (List.intercalate "\n".data all_cells)

/-- `DEFAULT_SOLVER_CONFIG["solution_prompt"].format(state=...)`
(lines 39–44). -/
def solutionPromptFmt (state : Str) : Str :=
  "\n        Based on the final state:\n        ".data ++ state
    ++ "\n        \n        Please provide the complete solution in a clear format.\n    ".data

/-- `UniversalSolver._get_solution` (lines 161–165). -/
def getSolution (llm : Str → Str) (state : SystemState) : Str :=
  llm (solutionPromptFmt (formatState state))

/-- The prompt built for each iteration of `solve` (lines 126–128). -/
def iterationPrompt (state : SystemState) : Str :=
  processPrompt ++ "\n\nCurrent State:\n".data ++ formatState state

/-- `UniversalSolver.solve`'s `while True` loop (lines 124–135), run with
explicit fuel: `none` means the loop has not finished within `fuel`
iterations (the source has no iteration bound of its own).  On `break` the
code returns `self._get_solution(state)`. -/
def solveFuel (llm : Str → Str) (uuids : Nat → Str) :
    Nat → SystemState → Nat → Option (Except PyErr Str)
  | 0, _, _ => none
  | fuel + 1, state, ctr =>
    let response := llm (iterationPrompt state)
    if containsStr response "STATUS: SOLVED".data then
      some (.ok (getSolution llm state))
    else
      match applyChanges uuids ctr state response with
      | .error e => some (.error e)
      | .ok (state', ctr') => solveFuel llm uuids fuel state' ctr'

/-- `UniversalSolver.solve(query)` (lines 109–135) with explicit fuel. -/
def solve (llm : Str → Str) (uuids : Nat → Str) (query : Str) (fuel : Nat) :
    Option (Except PyErr Str) :=
  solveFuel llm uuids fuel (initialState query) 0

/-- `solve` diverges: for every fuel bound the `while True` loop is still
running (it neither returned nor raised). -/
def solveDiverges (llm : Str → Str) (uuids : Nat → Str) (query : Str) : Prop :=
  ∀ fuel, solve llm uuids query fuel = none

end V4

/-! ## Python `str.format` (named placeholders) -/

/-- One pass of Python `template.format(**fields)`: scan for `{name}`
placeholders and substitute; substituted values are not rescanned. -/
def formatPyF (fields : List (Str × Str)) : Nat → Str → Str
  | 0, s => s
  | f + 1, s =>
    match breakOnFirst "\x7b".data s with
    | none => s
    | some (pre, post) =>
      match breakOnFirst "\x7d".data post with
      | none => s
      | some (name, rest) =>
        pre ++ (lookupD fields name).getD [] ++ formatPyF fields f rest

/-- Python `template.format(**fields)` for the templates used here (every
placeholder names a supplied field). -/
def formatPy (template : Str) (fields : List (Str × Str)) : Str :=
  formatPyF fields (template.length + 1) template

/-! ## V10 — `unnamed/part_010` ("Final code v10 self improving") -/

namespace V10

/-- `SystemState` dataclass (lines 46–50): "Simple container for cells and
current focus"; `cells: Dict[str, str]`. -/
structure SystemState where
  cells : List (Str × Str)
  current_cell_id : Option Str
  deriving DecidableEq, Repr

/-- `DEFAULT_SOLVER_CONFIG["main_prompt"]` (lines 5–17). -/
def mainPromptText : Str :=
  ("\n        You are a universal problem solver. Examine the current state and either:\n"
   ++ "        1. Say \x27SOLVED\x27 and give the solution if the problem is solved\n"
   ++ "        2. Specify the exact next state needed to make progress\n\n"
   ++ "        When specifying a state:\n"
   ++ "        - Start with \x27NEXT STATE:\x27\n"
   ++ "        - List each cell as \x27CELL: <content>\x27\n"
   ++ "        - Mark the current focus with \x27CURRENT CELL: <content>\x27\n"
   ++ "        - End with \x27END STATE\x27\n\n"
   ++ "        Include your reasoning before specifying the state.\n    ").data

/-- `DEFAULT_SOLVER_CONFIG["correction_prompt"]` (lines 18–28). -/
def correctionPromptText : Str :=
  ("\n        I couldn\x27t understand the state specification in your response:\n"
   ++ "        \x7bresponse\x7d\n"
   ++ "        Please provide the next state using this exact format:\n"
   ++ "        NEXT STATE:\n"
   ++ "        CELL: <first cell content>\n"
   ++ "        CELL: <second cell content>\n"
   ++ "        CURRENT CELL: <current focus content>\n"
   ++ "        END STATE\n"
   ++ "        Previous response formatting issues: \x7bissues\x7d\n    ").data

/-- `DEFAULT_SOLVER_CONFIG["fallback_prompt"]` (lines 29–32). -/
def fallbackPromptText : Str :=
  ("\n        Please just list the cells for the next state, one per line, \n"
   ++ "        and mark one as current. Nothing else.\n    ").data

/-- `DEFAULT_SOLVER_CONFIG["solution_prompt"]` (lines 33–37). -/
def solutionPromptText : Str :=
  ("\n        Based on the final state:\n"
   ++ "        \x7bstate\x7d\n"
   ++ "        Please provide the complete solution in a clear format.\n    ").data

/-- `DEFAULT_SOLVER_CONFIG` (lines 4–38): exactly four recognized keys. -/
def DEFAULT_SOLVER_CONFIG : List (Str × Str) :=
  [("main_prompt".data, mainPromptText),
   ("correction_prompt".data, correctionPromptText),
   ("fallback_prompt".data, fallbackPromptText),
   ("solution_prompt".data, solutionPromptText)]

/-- `UniversalSolver._format_state` (lines 90–94). -/
def formatState (state : SystemState) : Str :=
  List.intercalate "\n".data (state.cells.map (fun p =>
    "\nCell ".data ++ p.1
      ++ (if some p.1 = state.current_cell_id then " (CURRENT)".data else [])
      ++ ":\n".data ++ p.2))

/-- A state is valid when its focus, if set, names an existing cell
(spec §3, "current_focus_id, if set, references an existing section"). -/
def validState (state : SystemState) : Prop :=
  ∀ c, state.current_cell_id = some c → containsD state.cells c = true

instance (state : SystemState) : Decidable (validState state) := by
  unfold validState
  cases state.current_cell_id with
  | none => exact isTrue (by intro c h; cases h)
  | some c =>
      refine decidable_of_iff (containsD state.cells c = true) ?_
      constructor
      · intro h c' hc'
        cases hc'
        exact h
      · intro h
        exact h c rfl

/-- The `(is_current, content)` entries extracted from the cell lines of a
state specification (helper of the spec-modelled `tryParseState` below). -/
def parseEntries (body : Str) : List (Bool × Str) :=
  (pyLines body).filterMap (fun line =>
    let l := pyStrip line
    if isPre "CURRENT CELL:".data l then
      some (true, pyStrip ((afterSep1 l ":".data).getD []))
    else if isPre "CELL:".data l then
      some (false, pyStrip ((afterSep1 l ":".data).getD []))
    else none)

/-- The id given to the `i`-th parsed cell. -/
def entryId (i : Nat) : Str :=
  "cell_".data ++ (Nat.repr i).data

/-- The cell dict built from the parsed `(is_current, content)` entries. -/
def entryCells (entries : List (Bool × Str)) : List (Str × Str) :=
  entries.enum.map (fun e => (entryId e.1, e.2.2))

/-- The focus: the last `CURRENT CELL:` entry, if any. -/
def entryCurrent (entries : List (Bool × Str)) : Option Str :=
  ((entries.enum.filter (fun e => e.2.1 = true)).getLast?).map (fun e => entryId e.1)

/-- Modelled from the spec: `UniversalSolver._try_parse_state` is elided in
the source (`part_010` line 96, "[rest of UniversalSolver implementation...]").
Modelled from the response grammar fixed by `DEFAULT_SOLVER_CONFIG`
(`NEXT STATE:` / `CELL:` / `CURRENT CELL:` / `END STATE`) and spec §4.1:
the result is `(success, state)` or `(False, issues)`; a response without
the `NEXT STATE:` marker, or with no cell lines, fails.  Parsed cells get
sequential ids; the last `CURRENT CELL:` line provides the focus. -/
def tryParseState (response : Str) : Except Str SystemState :=
  match afterSep1 response "NEXT STATE:".data with
  | none => .error "Missing \x27NEXT STATE:\x27 marker".data
  | some afterMarker =>
    let body := (pySplit1 afterMarker "END STATE".data).headI
    let entries := parseEntries body
    if entries = [] then
      .error "No cell lines found".data
    else
      .ok { cells := entryCells entries
            current_cell_id := entryCurrent entries }

/-- Modelled from the spec: `UniversalSolver._create_fallback_state` is
elided in the source (`part_010` line 96).  Spec §4.6 (`GiveUp`): "append
the raw unparseable response as a new `Unparsed_Response` section, focus
unchanged". -/
def createFallbackState (state : SystemState) (response : Str) : SystemState :=
  { cells := setD state.cells "Unparsed_Response".data response
    current_cell_id := state.current_cell_id }

/-- Tags classifying the prompts the solver sends in one iteration. -/
inductive PromptTag where
  | main
  | correction
  | fallback
  deriving DecidableEq, Repr

/-- What one iteration of `solve` produces: either the SOLVED response
(returned to the caller) or the next state. -/
inductive StepOutcome where
  | solved (response : Str)
  | next (state : SystemState)
  deriving DecidableEq, Repr

/-- Observable record of one iteration of `solve`: the outcome, the prompts
issued to the LLM (tagged, in order), and the warnings recorded.  The source
contains no logging or warning statement at all, so no arm of the embedded
iteration ever appends a warning. -/
structure StepResult where
  outcome : StepOutcome
  prompts : List (PromptTag × Str)
  warnings : List Str
  deriving DecidableEq, Repr

/-- One pass of the `while True` body of `UniversalSolver.solve`
(lines 63–88), given the already-computed main response. -/
def solveStepWith (llm : Str → Str) (state : SystemState) (response : Str)
    (mainPrompt : Str) : StepResult :=
  if containsStr (pyUpper response) "SOLVED".data then
    { outcome := .solved response, prompts := [(.main, mainPrompt)], warnings := [] }
  else
    match tryParseState response with
    | .ok st =>
        { outcome := .next st, prompts := [(.main, mainPrompt)], warnings := [] }
    | .error issues =>
        let correctionPrompt :=
          formatPy correctionPromptText
            [("response".data, response), ("issues".data, issues)]
        let correction_response := llm correctionPrompt
        match tryParseState correction_response with
        | .ok st =>
            { outcome := .next st
              prompts := [(.main, mainPrompt), (.correction, correctionPrompt)]
              warnings := [] }
        | .error _ =>
            let final_response := llm fallbackPromptText
            let prompts := [(.main, mainPrompt), (.correction, correctionPrompt),
                            (.fallback, fallbackPromptText)]
            match tryParseState final_response with
            | .ok st => { outcome := .next st, prompts := prompts, warnings := [] }
            | .error _ =>
                { outcome := .next (createFallbackState state response)
                  prompts := prompts
                  warnings := [] }

/-- One iteration of `UniversalSolver.solve` (lines 63–88), at
`DEFAULT_SOLVER_CONFIG`: build the main prompt, call the LLM, and run the
tiered correction/fallback ladder. -/
def solveStep (llm : Str → Str) (state : SystemState) : StepResult :=
  let mainPrompt := mainPromptText ++ "\nCurrent state:\n".data ++ formatState state
  solveStepWith llm state (llm mainPrompt) mainPrompt

/-- The initial state of `solve` (lines 58–61). -/
def initialState (query : Str) : SystemState :=
  { cells := [("initial".data, query)], current_cell_id := some "initial".data }

/-- The `while True` loop of `solve` (lines 63–88) with explicit fuel:
`none` means the loop has not returned within `fuel` iterations (the source
has no iteration bound of its own). -/
def solveFuel (llm : Str → Str) : Nat → SystemState → Option Str
  | 0, _ => none
  | fuel + 1, state =>
    match (solveStep llm state).outcome with
    | .solved response => some response
    | .next state' => solveFuel llm fuel state'

/-- `UniversalSolver.solve(query)` (lines 57–88) with explicit fuel. -/
def solve (llm : Str → Str) (query : Str) (fuel : Nat) : Option Str :=
  solveFuel llm fuel (initialState query)

/-- `solve` diverges: for every fuel bound the loop is still running. -/
def solveDiverges (llm : Str → Str) (query : Str) : Prop :=
  ∀ fuel, solve llm query fuel = none

end V10

/-! ## FP — `unnamed/part_007` ("Final code functional") -/

namespace FP

/-- The task-creation arguments `json.loads` can deliver to `create_task`
(`part_007` lines 73–78): `description` is required, `priority` and
`dependencies` have defaults. -/
structure TaskArgs where
  description : Str
  priority : Int
  dependencies : List Str
  deriving DecidableEq, Repr

/-- The content stored in a cell by the `TASK:` branch of `parse_state`:
either the error string written by the `except` handler (line 139) or the
`CellContent(task, result)` of the success path (line 136). -/
inductive CellC where
  | text (s : Str)
  | taskCell (args : TaskArgs) (result : Str)
  deriving DecidableEq, Repr

/-- `task_tools(...)["create_task"]` (lines 73–79) applied to parsed
arguments.  The closure builds a frozen `Task` dataclass and then calls
`json.dumps({"task": task.__dict__, ...})`; `task.__dict__` holds
`status: TaskStatus.PENDING` (an `Enum`) and a `set` of dependencies,
neither of which is JSON serializable, so `json.dumps` always raises
`TypeError` — `create_task` never returns. -/
def createTask (_args : TaskArgs) : Except PyErr Str :=
  .error .typeError

/-- The local environment of `parse_state`'s parsing loop (lines 114–118):
the accumulated `cells`, whether the local variable `cell_id` is currently
bound (and to what), and the uuid counter.  The loop also initialises
`relations`, `current_cell_id`, `current_parent_id` and `current_depth`,
but those are only assigned in the elided `TOOL:`/`CELL:` branches. -/
structure LoopSt where
  cells : List (Str × CellC)
  bound : Option Str
  ctr : Nat
  deriving DecidableEq, Repr

/-- The `except Exception as e` handler of the `TASK:` branch
(lines 138–139): it evaluates `cells[cell_id]`, so if the local `cell_id`
was never bound the handler itself raises `NameError`; if it is bound (by
an earlier `TASK:` line) the handler overwrites that cell. -/
def taskHandler (st : LoopSt) (e : PyErr) : Except PyErr LoopSt :=
  match st.bound with
  | none => .error .nameError
  | some cid =>
      let c : CellC := .text ("Error creating task: ".data ++ errText e)
      .ok { st with cells := setD st.cells cid c }

/-- The `line.startswith("TASK:")` branch of `parse_state` (lines 127–139):
`args_str = '\x7b' + line.split('\x7b', 1)[1]` (IndexError when the line has no
brace), `json.loads(args_str)` (decode error), `cell_id = str(uuid.uuid4())`
(binds the local), then `create_task` (always raises, see `createTask`); any
of these exceptions reaches `taskHandler`. -/
def taskLineStep (jsonLoads : Str → Option TaskArgs) (uuids : Nat → Str)
    (st : LoopSt) (line : Str) : Except PyErr LoopSt :=
  match afterSep1 line "\x7b".data with
  | none => taskHandler st .indexError
  | some after =>
    let args_str := "\x7b".data ++ after
    match jsonLoads args_str with
    | none => taskHandler st .jsonDecodeError
    | some args =>
      let cell_id := uuids st.ctr
      let st' : LoopSt := { st with bound := some cell_id, ctr := st.ctr + 1 }
      match createTask args with
      | .error e => taskHandler st' e
      | .ok result =>
          .ok { st' with cells := setD st'.cells cell_id (.taskCell args result) }

/-- The body of `for line in state_text.split('\n')` (lines 120–147):
blank lines are skipped; `TASK:` lines run `taskLineStep`; the `TOOL:` and
`CELL:`/`CURRENT CELL:` branches are `pass` in the source ("Existing ...
code..."), and other lines match no branch.  `line_depth` is computed but
unused in the visible code. -/
def lineStep (jsonLoads : Str → Option TaskArgs) (uuids : Nat → Str)
    (st : LoopSt) (rawLine : Str) : Except PyErr LoopSt :=
  if pyStrip rawLine = [] then .ok st
  else
    let line := pyStrip rawLine
    if isPre "TASK:".data line then taskLineStep jsonLoads uuids st line
    else .ok st

/-- The whole parsing loop of `parse_state` over the split state text. -/
def processLines (jsonLoads : Str → Option TaskArgs) (uuids : Nat → Str)
    (st : LoopSt) (lines : List Str) : Except PyErr LoopSt :=
  lines.foldlM (lineStep jsonLoads uuids) st

/-- What `parse_state` has produced when the visible code ends: the early
`(False, Left(...))` return for a missing marker, or the loop's final
environment (the success-tuple construction after the loop is elided in the
source: "Rest of parsing logic remains the same..."). -/
inductive ParseOut where
  | left (msg : Str)
  | loopEnded (st : LoopSt)
  deriving DecidableEq, Repr

/-- The `state_text` taken by `parse_state` (lines 111–112):
`response.split("NEXT STATE:", 1)[1].split("END STATE", 1)[0]` (the
`if len(parts) > 1` conditional selects `parts[0]` in either branch). -/
def stateTextOf (response : Str) : Str :=
  ((pySplit1 ((afterSep1 response "NEXT STATE:".data).getD []) "END STATE".data).headI)

/-- `parse_state(response, current_state)` (lines 105–149), up to the point
where the visible source ends.  An uncaught exception (the handler's
`NameError`) propagates to the caller. -/
def parseState (jsonLoads : Str → Option TaskArgs) (uuids : Nat → Str)
    (response : Str) : Except PyErr ParseOut :=
  if containsStr response "NEXT STATE:".data then
    (processLines jsonLoads uuids
        { cells := [], bound := none, ctr := 0 }
        (pyLines (stateTextOf response))).map .loopEnded
  else
    .ok (.left "Missing \x27NEXT STATE:\x27 marker".data)

/-- A line the `TASK:` branch handles. -/
def isTaskLine (rawLine : Str) : Bool :=
  pyStrip rawLine ≠ [] && isPre "TASK:".data (pyStrip rawLine)

/-- A `TASK:` line on which the `try` block fails before `cell_id` is
bound: either the line has no `\x7b` (IndexError on `split('\x7b', 1)[1]`) or
its argument text is not valid JSON. -/
def taskLineFailsEarly (jsonLoads : Str → Option TaskArgs) (rawLine : Str) : Bool :=
  match afterSep1 (pyStrip rawLine) "\x7b".data with
  | none => true
  | some after => (jsonLoads ("\x7b".data ++ after)).isNone

end FP

/-! ## LG — `rj_copy_document_gen_langgraph_v2.txt` -/

namespace LG

/-- `ProjectNode` dataclass (lines 13–20).  `content: Dict[str, Any]` is
modelled with string values (JSON leaves); `children` embeds full nodes, as
in the source. -/
inductive ProjectNode where
  | mk (id : Str) (goal : Str) (content : List (Str × Str)) (summary : Str)
       (children : List (Str × ProjectNode)) (parent_id : Option Str)

def ProjectNode.id : ProjectNode → Str
  | .mk i _ _ _ _ _ => i

def ProjectNode.goal : ProjectNode → Str
  | .mk _ g _ _ _ _ => g

def ProjectNode.content : ProjectNode → List (Str × Str)
  | .mk _ _ c _ _ _ => c

def ProjectNode.summary : ProjectNode → Str
  | .mk _ _ _ s _ _ => s

def ProjectNode.children : ProjectNode → List (Str × ProjectNode)
  | .mk _ _ _ _ ch _ => ch

def ProjectNode.parent_id : ProjectNode → Option Str
  | .mk _ _ _ _ _ p => p

/-- `current.content.update(...)` target: the node with replaced content. -/
def ProjectNode.withContent : ProjectNode → List (Str × Str) → ProjectNode
  | .mk i g _ s ch p, c => .mk i g c s ch p

/-- `node.summary = ...`: the node with replaced summary. -/
def ProjectNode.withSummary : ProjectNode → Str → ProjectNode
  | .mk i g c _ ch p, s => .mk i g c s ch p

/-- The history entries appended by the graph nodes: `_analyze_current_state`
appends `{"type": "analysis", ...}`, `_generate_content` appends
`{"type": "generation", ...}`, `_parse_content` appends
`{"type": "parsing", "status": "success" | "recovered", ...}`. -/
inductive HEntry where
  | analysis (content : Str)
  | generation (content : Str)
  | parsingOk (content : List (Str × Str))
  | parsingRecovered (content : Str)

/-- `SystemState` dataclass (lines 22–26). -/
structure SystemState where
  nodes : List (Str × ProjectNode)
  current_focus_id : Str
  history : List HEntry

/-- `ProjectSystem.create_project(goal)` (lines 45–50). -/
def createProject (goal : Str) : SystemState :=
  { nodes := [("root".data, .mk "root".data goal [] [] [] none)]
    current_focus_id := "root".data
    history := [] }

/-- The `while node_id:` walk of `SystemState.get_path_to_current`
(lines 31–38), with explicit fuel: `none` means the walk has not finished
within `fuel` steps.  `self.nodes[node_id]` raises `KeyError` on a missing
id.  The source appends nodes focus-first and returns `list(reversed(path))`;
the accumulator below already produces that root-first order. -/
def pathWalkAux (nodes : List (Str × ProjectNode)) :
    Nat → Option Str → List ProjectNode → Option (Except PyErr (List ProjectNode))
  | 0, cur, acc => if truthyOpt cur then none else some (.ok acc)
  | f + 1, cur, acc =>
    if truthyOpt cur then
      match lookupD nodes (cur.getD []) with
      | none => some (.error .keyError)
      | some node => pathWalkAux nodes f node.parent_id (node :: acc)
    else some (.ok acc)

/-- `SystemState.get_path_to_current` (lines 31–38) with explicit fuel. -/
def getPathToCurrent (state : SystemState) (fuel : Nat) :
    Option (Except PyErr (List ProjectNode)) :=
  pathWalkAux state.nodes fuel (some state.current_focus_id) []

/-- Python `repr` of a list of strings, used in prompt text
(`[c.summary for c in current.children.values()]`). -/
def pyReprStrList (l : List Str) : Str :=
  "[".data ++
    List.intercalate ", ".data (l.map (fun s => "\x27".data ++ s ++ "\x27".data))
    ++ "]".data

/-- Rendering standing in for the `json.dumps(..., indent=2)` calls, which
only ever feed prompt text for the LLM collaborator. -/
def jsonDumpsDict (d : List (Str × Str)) : Str :=
  "\x7b".data ++
    List.intercalate ", ".data
      (d.map (fun p => "\"".data ++ p.1 ++ "\": \"".data ++ p.2 ++ "\"".data))
    ++ "\x7d".data

/-- The analysis prompt of `_analyze_current_state` (lines 84–99). -/
def analyzePromptText (context : Str) (current : ProjectNode) : Str :=
  "Given this context of the current project state:\n".data ++ context
    ++ "\n\nCurrent focus is on: ".data ++ current.goal
    ++ "\nCurrent content: ".data ++ jsonDumpsDict current.content
    ++ ("\n\nSuggest the next best action as either:\n"
        ++ "1. Add content to current node\n2. Create a sub-project\n"
        ++ "3. Move focus to parent\n4. Mark current node as complete\n\n"
        ++ "Respond in JSON format with \x27action\x27 and \x27reason\x27 fields.").data

/-- `ProjectSystem._analyze_current_state` (lines 73–104): reads the current
node and the path to it, asks the LLM, and appends one `analysis` entry. -/
def analyzeF (llm : Str → Str) (wfuel : Nat) (state : SystemState) :
    Option (Except PyErr SystemState) :=
  match lookupD state.nodes state.current_focus_id with
  | none => some (.error .keyError)
  | some current =>
    match getPathToCurrent state wfuel with
    | none => none
    | some (.error e) => some (.error e)
    | some (.ok path) =>
      let context := List.intercalate "\n".data (path.enum.map (fun p =>
        "Level ".data ++ (Nat.repr p.1).data ++ ": ".data ++ p.2.goal
          ++ " - ".data ++ p.2.summary))
      let analysis := llm (analyzePromptText context current)
      some (.ok { state with history := state.history ++ [.analysis analysis] })

/-- The generation prompt of `_generate_content` (lines 111–118). -/
def generatePromptText (current : ProjectNode) : Str :=
  "Generate content for this project node:\nGoal: ".data ++ current.goal
    ++ "\nExisting content: ".data ++ jsonDumpsDict current.content
    ++ "\n\nProvide content in JSON format that adds to or refines existing content.".data

/-- `ProjectSystem._generate_content` (lines 106–121): appends one
`generation` entry. -/
def generateF (llm : Str → Str) (state : SystemState) :
    Except PyErr SystemState :=
  match lookupD state.nodes state.current_focus_id with
  | none => .error .keyError
  | some current =>
    let content := llm (generatePromptText current)
    .ok { state with history := state.history ++ [.generation content] }

/-- The generation entry a later node searches the history for
(`next(h["content"] for h in reversed(...) if h["type"] == "generation")`). -/
def getGen : HEntry → Option Str
  | .generation c => some c
  | _ => none

/-- The recovery prompt of `_parse_content` (lines 144–150). -/
def recoveryPromptText (lastGeneration : Str) : Str :=
  "The following content needs to be converted to valid JSON:\n".data
    ++ lastGeneration
    ++ "\n\nPlease provide valid JSON only in your response.".data

/-- `ProjectSystem._parse_content` (lines 123–157): finds the most recent
`generation` entry; `if not last_generation:` returns the state without
appending — this is Python truthiness, so both a missing entry and an
empty-string generation content skip the append; otherwise it appends
exactly one `parsing` entry — `success` with the parsed JSON, or
`recovered` with the LLM's recovery text on `JSONDecodeError`. -/
def parseF (llm : Str → Str) (jsonLoads : Str → Option (List (Str × Str)))
    (state : SystemState) : SystemState :=
  match state.history.reverse.findSome? getGen with
  | none => state
  | some g =>
    if g = [] then state
    else
      match jsonLoads g with
      | some parsed =>
          { state with history := state.history ++ [.parsingOk parsed] }
      | none =>
          let recovery := llm (recoveryPromptText g)
          { state with history := state.history ++ [.parsingRecovered recovery] }

/-- The parsing entry `_update_structure` searches for (`"type" == "parsing"`
matches both the `success` and the `recovered` status). -/
def getParsing : HEntry → Option (Sum (List (Str × Str)) Str)
  | .parsingOk d => some (.inl d)
  | .parsingRecovered s => some (.inr s)
  | _ => none

/-- `ProjectSystem._update_structure` (lines 159–172): `if last_parsed:` is
Python truthiness — a missing entry, an empty parsed dict or an empty
recovery string all return without touching the structure (so
`get_current_node()` is not even called); otherwise the current node is
looked up (`KeyError` on a missing focus) and
`current.content.update(last_parsed)` runs — merging key by key for a
parsed dict, raising `ValueError` for a (non-empty) recovery string. -/
def updateF (state : SystemState) : Except PyErr SystemState :=
  match state.history.reverse.findSome? getParsing with
  | none => .ok state
  | some (.inl d) =>
    if d = [] then .ok state
    else
      match lookupD state.nodes state.current_focus_id with
      | none => .error .keyError
      | some current =>
          let merged := d.foldl (fun acc kv => setD acc kv.1 kv.2) current.content
          let nodes' := setD state.nodes state.current_focus_id (current.withContent merged)
          .ok { state with nodes := nodes' }
  | some (.inr s) =>
    if s = [] then .ok state
    else
      match lookupD state.nodes state.current_focus_id with
      | none => .error .keyError
      | some _ => .error .valueError

/-- The node-summary prompt of `_propagate_summaries` (lines 180–188). -/
def nodeSummaryPromptText (current : ProjectNode) : Str :=
  "Summarize this project node:\nGoal: ".data ++ current.goal
    ++ "\nContent: ".data ++ jsonDumpsDict current.content
    ++ "\nChild summaries: ".data
    ++ pyReprStrList (current.children.map (fun c => c.2.summary))
    ++ "\n\nProvide a brief summary (max 100 words) that captures key points.".data

/-- The parent-summary prompt of `_propagate_summaries` (lines 196–204). -/
def parentSummaryPromptText (parent : ProjectNode) : Str :=
  "Update summary based on child change:\nParent goal: ".data ++ parent.goal
    ++ "\nParent content: ".data ++ jsonDumpsDict parent.content
    ++ "\nChild summaries: ".data
    ++ pyReprStrList (parent.children.map (fun c => c.2.summary))
    ++ "\n\nProvide a brief summary (max 100 words) that captures key points.".data

/-- The `while node_id:` walk of `_propagate_summaries` (lines 192–206),
with explicit fuel: look up the parent (`KeyError` on a missing id), ask the
LLM for an updated summary, store it, and climb to the next parent. -/
def propLoop (llm : Str → Str) :
    Nat → List (Str × ProjectNode) → Option Str →
      Option (Except PyErr (List (Str × ProjectNode)))
  | 0, nodes, node_id => if truthyOpt node_id then none else some (.ok nodes)
  | f + 1, nodes, node_id =>
    if truthyOpt node_id then
      match lookupD nodes (node_id.getD []) with
      | none => some (.error .keyError)
      | some parent =>
        let parent_summary := llm (parentSummaryPromptText parent)
        propLoop llm f (setD nodes (node_id.getD []) (parent.withSummary parent_summary))
          parent.parent_id
    else some (.ok nodes)

/-- `ProjectSystem._propagate_summaries` (lines 174–208): summarize the
current node, then walk the parent chain updating each ancestor's summary. -/
def propagateF (llm : Str → Str) (wfuel : Nat) (state : SystemState) :
    Option (Except PyErr SystemState) :=
  match lookupD state.nodes state.current_focus_id with
  | none => some (.error .keyError)
  | some current =>
    let summary := llm (nodeSummaryPromptText current)
    let nodes1 := setD state.nodes state.current_focus_id (current.withSummary summary)
    match propLoop llm wfuel nodes1 current.parent_id with
    | none => none
    | some (.error e) => some (.error e)
    | some (.ok nodes2) => some (.ok { state with nodes := nodes2 })

/-- One full pass around the graph cycle (lines 52–71):
`analyze_state → generate_content → parse_content → update_structure →
propagate_summaries` (the edge list routes `parse_content` to
`update_structure` and `propagate_summaries` back to `analyze_state`). -/
def cycleF (llm : Str → Str) (jsonLoads : Str → Option (List (Str × Str)))
    (wfuel : Nat) (state : SystemState) : Option (Except PyErr SystemState) :=
  match analyzeF llm wfuel state with
  | none => none
  | some (.error e) => some (.error e)
  | some (.ok s1) =>
    match generateF llm s1 with
    | .error e => some (.error e)
    | .ok s2 =>
      let s3 := parseF llm jsonLoads s2
      match updateF s3 with
      | .error e => some (.error e)
      | .ok s4 => propagateF llm wfuel s4

/-! ### Termination analysis of the parent-chain walks -/

/-- Abstract state of a parent-chain walk: still at some id, finished
normally (reached a falsy `parent_id`), or crashed on a `KeyError`. -/
inductive WalkSt where
  | run (cur : Str)
  | done
  | fail
  deriving DecidableEq, Repr

/-- One step of the parent-chain walk shared by `get_path_to_current` and
`_propagate_summaries`: look up the current id and move to its parent. -/
def walkStep (nodes : List (Str × ProjectNode)) : WalkSt → WalkSt
  | .run cur =>
    match lookupD nodes cur with
    | none => .fail
    | some node =>
        if truthyOpt node.parent_id then .run (node.parent_id.getD []) else .done
  | .done => .done
  | .fail => .fail

/-- Entry point of a walk starting at an optional id. -/
def mkSt (cur : Option Str) : WalkSt :=
  if truthyOpt cur then .run (cur.getD []) else .done

/-- The abstract walk position after `k` steps of the chain starting at
`current_focus_id`. -/
def chainSt (state : SystemState) (k : Nat) : WalkSt :=
  (walkStep state.nodes)^[k] (mkSt (some state.current_focus_id))

/-- The parent chain from the focus reaches a node with no (truthy) parent,
every id on the way existing: the walks can finish normally. -/
def ChainTerminates (state : SystemState) : Prop :=
  ∃ k, chainSt state k = .done

/-- The parent chain from the focus revisits an id: a relation-graph cycle
reachable from the focus. -/
def HasCycle (state : SystemState) : Prop :=
  ∃ i j c, i < j ∧ chainSt state i = .run c ∧ chainSt state j = .run c

/-- What a walk only reads from the node table: presence and `parent_id`. -/
def parentView (nodes : List (Str × ProjectNode)) (k : Str) : Option (Option Str) :=
  (lookupD nodes k).map (·.parent_id)

end LG

/-! ## V4 object identity — references into a heap of states -/

namespace V4

/-- `_apply_changes` as the caller sees it through object references:
`heap` holds the live `SystemState` objects and `r` is the caller's
reference.  `new_state = deepcopy(state)` allocates a fresh object, all
mutations target it, and the caller gets the fresh reference back. -/
def applyChangesRef (uuids : Nat → Str) (ctr : Nat) (heap : List SystemState)
    (r : Nat) (response : Str) :
    Except PyErr (List SystemState × Nat × Nat) :=
  match heap.get? r with
  | none => .error .keyError
  | some state =>
    match applyChanges uuids ctr state response with
    | .error e => .error e
    | .ok (state', ctr') => .ok (heap ++ [state'], heap.length, ctr')

end V4

/-! ## Shared lemmas -/

/-- Two prefixes of the same string are comparable. -/
theorem isPre_comparable : ∀ (s q p : Str), isPre p s = true → isPre q s = true →
    isPre q p = true ∨ isPre p q = true := by
  intro s
  induction s with
  | nil =>
      intro q p hp hq
      cases p with
      | nil => right; rfl
      | cons a p' => simp [isPre] at hp
  | cons c s' ih =>
      intro q p hp hq
      cases p with
      | nil => right; rfl
      | cons a p' =>
        cases q with
        | nil => left; rfl
        | cons b q' =>
          simp only [isPre, Bool.and_eq_true, decide_eq_true_eq] at hp hq
          rcases hp with ⟨hac, hp'⟩
          rcases hq with ⟨hbc, hq'⟩
          rcases ih q' p' hp' hq' with h | h
          · left
            simp only [isPre, Bool.and_eq_true, decide_eq_true_eq]
            exact ⟨by rw [hbc, hac], h⟩
          · right
            simp only [isPre, Bool.and_eq_true, decide_eq_true_eq]
            exact ⟨by rw [hbc, hac], h⟩

/-- If `p` is a prefix of `s` and `q` is incomparable with `p`, then `q` is
not a prefix of `s`. -/
theorem isPre_false_of_incomp (q p s : Str) (hp : isPre p s = true)
    (h1 : isPre q p = false) (h2 : isPre p q = false) : isPre q s = false := by
  cases hq : isPre q s with
  | false => rfl
  | true =>
      rcases isPre_comparable s q p hp hq with h | h
      · rw [h1] at h; cases h
      · rw [h2] at h; cases h

/-- `Except.ok` binds transparently (Python: no exception, keep going). -/
theorem except_ok_bind {ε α β : Type} (a : α) (f : α → Except ε β) :
    (Except.ok a >>= f) = f a := rfl

/-! ## Fixtures: concrete collaborators used by witnesses and
counterexamples -/

/-- A deterministic stand-in for `str(uuid.uuid4())`. -/
def uuidSupply : Nat → Str := fun n => "uuid-".data ++ (Nat.repr n).data

/-- A model that never signals completion and requests no changes. -/
def contLLM : Str → Str := fun _ => "CONTINUE".data

/-- A model whose response contains a malformed `MODIFY CELL` line. -/
def crashLLM : Str → Str := fun _ => "- MODIFY CELL".data

/-- A model that answers with unparseable prose. -/
def garbageLLM : Str → Str := fun _ => "total garbage".data

/-- A model that declares the task solved while also carrying edit tags. -/
def solvedEditLLM : Str → Str :=
  fun _ => "SOLVED\nNEXT STATE:\nCELL: leftover edit\nEND STATE".data

/-- A constant model for the LangGraph pipeline. -/
def lgLLM : Str → Str := fun _ => "resp".data

/-- A `json.loads` stand-in that accepts everything as `{"k": "v"}`. -/
def lgJson : Str → Option (List (Str × Str)) := fun _ => some [("k".data, "v".data)]

/-! ## Validity lemmas for the V10 step -/

/-- Updating or adding a key never removes another key from a dict. -/
theorem containsD_setD_mono {α : Type} (d : List (Str × α)) (k c : Str) (v : α)
    (h : containsD d c = true) : containsD (setD d k v) c = true := by
  rcases (List.any_eq_true).mp h with ⟨p, hp, hpc⟩
  unfold setD
  by_cases hk : containsD d k = true
  · rw [if_pos hk]
    apply (List.any_eq_true).mpr
    refine ⟨if p.1 = k then (k, v) else p, List.mem_map_of_mem _ hp, ?_⟩
    by_cases hpk : p.1 = k
    · simp only [hpk, if_true, ite_true]
      simp only [decide_eq_true_eq] at hpc ⊢
      rw [← hpk, hpc]
    · simp only [hpk, if_false, ite_false]
      exact hpc
  · rw [if_neg hk]
    apply (List.any_eq_true).mpr
    exact ⟨p, List.mem_append_left _ hp, hpc⟩

/-- Every state produced by the spec-modelled parser is valid: its focus,
if set, is one of the freshly built cell ids. -/
theorem entryCurrent_valid (entries : List (Bool × Str)) (c : Str)
    (h : V10.entryCurrent entries = some c) :
    containsD (V10.entryCells entries) c = true := by
  unfold V10.entryCurrent at h
  rcases Option.map_eq_some'.mp h with ⟨e, hLast, hce⟩
  have hmemF : e ∈ (entries.enum.filter (fun e => e.2.1 = true)) := by
    have := List.mem_getLast?_eq_getLast (l := entries.enum.filter (fun e => e.2.1 = true))
      (x := e) hLast
    rcases this with ⟨hne, hx⟩
    rw [hx]
    exact List.getLast_mem hne
  have hmem : e ∈ entries.enum := List.mem_of_mem_filter hmemF
  apply (List.any_eq_true).mpr
  refine ⟨(V10.entryId e.1, e.2.2), ?_, ?_⟩
  · exact List.mem_map_of_mem _ hmem
  · simp only [decide_eq_true_eq]
    exact hce

/-- A state returned by `tryParseState` is valid. -/
theorem tryParseState_valid (response : Str) (st : V10.SystemState)
    (h : V10.tryParseState response = .ok st) : V10.validState st := by
  unfold V10.tryParseState at h
  cases hA : afterSep1 response "NEXT STATE:".data with
  | none => rw [hA] at h; cases h
  | some am =>
      rw [hA] at h
      dsimp only at h
      by_cases hE : V10.parseEntries ((pySplit1 am "END STATE".data).headI) = []
      · rw [if_pos hE] at h; cases h
      · rw [if_neg hE] at h
        cases h
        intro c hc
        exact entryCurrent_valid _ c hc

/-- The spec-modelled give-up state is valid whenever its input is. -/
theorem createFallbackState_valid (st : V10.SystemState) (response : Str)
    (h : V10.validState st) :
    V10.validState (V10.createFallbackState st response) := by
  intro c hc
  exact containsD_setD_mono _ _ _ _ (h c hc)

/-! ## C1 — batch atomicity of `apply` -/

/-- Claim C1 counterexample: a batch containing a `MODIFY CELL` directive
naming a non-existent id is not rejected by `_apply_changes`: the batch
succeeds and the valid `NEW CELL` directive in it is applied (the result has
two cells, not the untouched prior state), contradicting "apply rejects the
entire batch, applies none of the directives, and returns a state
bit-for-bit identical to the pre-apply state". -/
theorem C1_counterexample :
    (V4.applyChanges uuidSupply 0 (V4.initialState "q".data)
        "- NEW CELL: hello\n- MODIFY CELL nope: x".data).map
        (fun p => p.1.cells.length) = .ok 2
    ∧ V4.applyChanges uuidSupply 0 (V4.initialState "q".data)
        "- NEW CELL: hello\n- MODIFY CELL nope: x".data
        ≠ .ok (V4.initialState "q".data, 0) := by
  constructor
  · decide
  · decide

/-- Claim C1 (amended): `_apply_changes` is not atomic and never rejects a
batch — each directive is validated individually: a `SET CURRENT:` or
`- MODIFY CELL` directive naming a non-existent cell id is silently skipped
(the state and counter pass through unchanged) while the remaining
directives of the batch are still applied. -/
theorem C1_amended :
    (∀ (uuids : Nat → Str) (st : V4.SystemState) (ctr : Nat)
       (change raw : Str) (rest : List Str),
       isPre "SET CURRENT:".data change = true →
       afterSep1 change ":".data = some raw →
       containsD st.cells (pyStrip raw) = false →
       V4.applyChangeList uuids (st, ctr) (change :: rest)
         = V4.applyChangeList uuids (st, ctr) rest)
    ∧ (∀ (uuids : Nat → Str) (st : V4.SystemState) (ctr : Nat)
         (change cid raw : Str) (rest : List Str),
         isPre "- MODIFY CELL".data change = true →
         (pySplitWs change).get? 3 = some cid →
         afterSep1 change ":".data = some raw →
         containsD st.cells cid = false →
         V4.applyChangeList uuids (st, ctr) (change :: rest)
           = V4.applyChangeList uuids (st, ctr) rest) := by
  constructor
  · intro uuids st ctr change raw rest h1 h2 h3
    have hNew : isPre "- NEW CELL:".data change = false :=
      isPre_false_of_incomp _ _ _ h1 (by decide) (by decide)
    have hMod : isPre "- MODIFY CELL".data change = false :=
      isPre_false_of_incomp _ _ _ h1 (by decide) (by decide)
    have hstep : V4.applyChange uuids (st, ctr) change = .ok (st, ctr) := by
      simp only [V4.applyChange, hNew, hMod, h1, h2, h3, Bool.false_eq_true,
        if_false, if_true, ite_true, ite_false]
    simp only [V4.applyChangeList, List.foldlM, hstep, except_ok_bind]
  · intro uuids st ctr change cid raw rest h1 hGet h2 h3
    have hNew : isPre "- NEW CELL:".data change = false :=
      isPre_false_of_incomp _ _ _ h1 (by decide) (by decide)
    have hstep : V4.applyChange uuids (st, ctr) change = .ok (st, ctr) := by
      simp only [V4.applyChange, hNew, h1, hGet, h2, h3, Bool.false_eq_true,
        if_false, if_true, ite_true, ite_false]
    simp only [V4.applyChangeList, List.foldlM, hstep, except_ok_bind]

/-- Claim C1 witness: the amended statement at concrete inputs — a
`SET CURRENT: zzz` (resp. `- MODIFY CELL zzz: w`) naming no existing cell is
skipped while the following `NEW CELL` still applies. -/
theorem C1_witness :
    V4.applyChangeList uuidSupply (V4.initialState "q".data, 0)
        ["SET CURRENT: zzz".data, "- NEW CELL: y".data]
      = V4.applyChangeList uuidSupply (V4.initialState "q".data, 0)
          ["- NEW CELL: y".data]
    ∧ V4.applyChangeList uuidSupply (V4.initialState "q".data, 0)
        ["- MODIFY CELL zzz: w".data, "- NEW CELL: y".data]
      = V4.applyChangeList uuidSupply (V4.initialState "q".data, 0)
          ["- NEW CELL: y".data] :=
  ⟨C1_amended.1 uuidSupply (V4.initialState "q".data) 0 "SET CURRENT: zzz".data
      " zzz".data ["- NEW CELL: y".data] (by decide) (by decide) (by decide),
   C1_amended.2 uuidSupply (V4.initialState "q".data) 0 "- MODIFY CELL zzz: w".data
      "zzz:".data " w".data ["- NEW CELL: y".data] (by decide) (by decide)
      (by decide) (by decide)⟩

/-! ## C2 — recovery totality -/

/-- Claim C2 counterexample: one iteration of the v4 `solve` raises: on the
model response `"- MODIFY CELL"` (a line accepted by the change extractor
but with no fourth token), `change.split()[3]` raises `IndexError`, so
`solve` does not "never raise" on arbitrary model responses. -/
theorem C2_counterexample :
    V4.solve crashLLM uuidSupply "q".data 1 = some (.error .indexError) := by
  decide

/-- Claim C2 (amended): in the v10 solver one iteration of `solve` is total
— for every model response string it terminates and, when it continues, the
next state is valid (focus referencing an existing cell), down to the
give-up tier which appends the raw response as `Unparsed_Response` (the
elided `_try_parse_state` / `_create_fallback_state` are modelled from the
spec); the v4 `_apply_changes`, by contrast, raises `IndexError` on a
malformed `MODIFY CELL` line, so "never raises" holds only for v10. -/
theorem C2_amended (llm : Str → Str) (state : V10.SystemState)
    (response mp : Str) (st' : V10.SystemState)
    (hv : V10.validState state)
    (h : (V10.solveStepWith llm state response mp).outcome = .next st') :
    V10.validState st' := by
  unfold V10.solveStepWith at h
  by_cases hm : containsStr (pyUpper response) "SOLVED".data = true
  · rw [if_pos hm] at h
    simp at h
  · rw [if_neg hm] at h
    cases hp : V10.tryParseState response with
    | ok st =>
        rw [hp] at h
        simp only at h
        injection h with h'
        rw [← h']
        exact tryParseState_valid _ _ hp
    | error issues =>
        rw [hp] at h
        simp only at h
        cases hc : V10.tryParseState (llm (formatPy V10.correctionPromptText
            [("response".data, response), ("issues".data, issues)])) with
        | ok st2 =>
            rw [hc] at h
            simp only at h
            injection h with h'
            rw [← h']
            exact tryParseState_valid _ _ hc
        | error i2 =>
            rw [hc] at h
            simp only at h
            cases hf : V10.tryParseState (llm V10.fallbackPromptText) with
            | ok st3 =>
                rw [hf] at h
                simp only at h
                injection h with h'
                rw [← h']
                exact tryParseState_valid _ _ hf
            | error i3 =>
                rw [hf] at h
                simp only at h
                injection h with h'
                rw [← h']
                exact createFallbackState_valid state response hv

/-- Claim C2 witness: the amended statement at a concrete garbage response —
the give-up tier produces the valid `Unparsed_Response` state. -/
theorem C2_witness :
    V10.validState (V10.initialState "q".data)
    ∧ V10.validState
        (V10.createFallbackState (V10.initialState "q".data) "total garbage".data) :=
  ⟨by decide,
   C2_amended garbageLLM (V10.initialState "q".data) "total garbage".data
     "p".data _ (by decide) (by decide)⟩

/-! ## C3 — section naming and normalization -/

/-- Setting an absent key appends it. -/
theorem setD_append {α : Type} (d : List (Str × α)) (k : Str) (v : α)
    (h : containsD d k = false) : setD d k v = d ++ [(k, v)] := by
  unfold setD
  rw [h]
  simp

/-- Key membership distributes over dict concatenation. -/
theorem containsD_append {α : Type} (d e : List (Str × α)) (k : Str) :
    containsD (d ++ e) k = (containsD d k || containsD e k) :=
  List.any_append

/-- Key membership in a one-entry dict. -/
theorem containsD_single {α : Type} (a : Str) (b : α) (k : Str) :
    containsD [(a, b)] k = decide (a = k) := by
  simp [containsD]

/-- Claim C3 counterexample: under `_apply_changes` two `NEW CELL`
directives whose contents differ only by case (`Plan` / `plan`) both apply —
the result has three cells (the initial one plus two new ones), not "exactly
one section of that normalized name", and nothing is rejected. -/
theorem C3_counterexample :
    (V4.applyChanges uuidSupply 0 (V4.initialState "q".data)
        "- NEW CELL: Plan\n- NEW CELL: plan".data).map
        (fun p => p.1.cells.length) = .ok 3
    ∧ (V4.applyChanges uuidSupply 0 (V4.initialState "q".data)
        "- NEW CELL: Plan\n- NEW CELL: plan".data).map
        (fun p => p.1.cells.length) ≠ .ok 2 := by
  constructor
  · decide
  · decide

/-- Claim C3 (amended): the code has no section-naming policy — a
`NEW CELL` directive carries only content (no name), each one creates a
fresh uuid-keyed cell, and a batch of two `NEW CELL` directives (identical
or differing only by case) always appends two distinct cells; no directive
is ever rejected for a duplicate name. -/
theorem C3_amended (uuids : Nat → Str) (st : V4.SystemState) (ctr : Nat)
    (l1 l2 c1 c2 : Str)
    (h1 : isPre "- NEW CELL:".data l1 = true)
    (ha1 : afterSep1 l1 ":".data = some c1)
    (h2 : isPre "- NEW CELL:".data l2 = true)
    (ha2 : afterSep1 l2 ":".data = some c2)
    (hf1 : containsD st.cells (uuids ctr) = false)
    (hf2 : containsD st.cells (uuids (ctr + 1)) = false)
    (hne : uuids (ctr + 1) ≠ uuids ctr) :
    V4.applyChangeList uuids (st, ctr) [l1, l2] =
      .ok ({ st with cells := st.cells
               ++ [(uuids ctr, ⟨uuids ctr, pyStrip c1, [], []⟩),
                   (uuids (ctr + 1), ⟨uuids (ctr + 1), pyStrip c2, [], []⟩)] },
           ctr + 2) := by
  have s1 : V4.applyChange uuids (st, ctr) l1 =
      .ok ({ st with cells := st.cells ++ [(uuids ctr, ⟨uuids ctr, pyStrip c1, [], []⟩)] },
           ctr + 1) := by
    unfold V4.applyChange
    rw [if_pos h1, ha1]
    dsimp only
    rw [setD_append _ _ _ hf1]
  have hf2' : containsD (st.cells ++ [(uuids ctr, V4.Cell.mk (uuids ctr) (pyStrip c1) [] [])])
      (uuids (ctr + 1)) = false := by
    rw [containsD_append, hf2, containsD_single]
    simp only [Bool.false_or, decide_eq_false_iff_not]
    exact fun hh => hne hh.symm
  have s2 : V4.applyChange uuids
      ({ st with cells := st.cells ++ [(uuids ctr, ⟨uuids ctr, pyStrip c1, [], []⟩)] },
       ctr + 1) l2 =
      .ok ({ st with cells := st.cells
               ++ [(uuids ctr, ⟨uuids ctr, pyStrip c1, [], []⟩),
                   (uuids (ctr + 1), ⟨uuids (ctr + 1), pyStrip c2, [], []⟩)] },
           ctr + 2) := by
    unfold V4.applyChange
    rw [if_pos h2, ha2]
    dsimp only
    rw [setD_append _ _ _ hf2']
    simp
  simp only [V4.applyChangeList, List.foldlM, s1, except_ok_bind, s2]
  rfl

/-- Claim C3 witness: the amended statement at `Plan` / `plan` on the
initial state. -/
theorem C3_witness :
    V4.applyChangeList uuidSupply (V4.initialState "q".data, 0)
        ["- NEW CELL: Plan".data, "- NEW CELL: plan".data] =
      .ok ({ cells := [("initial".data,
                ⟨"initial".data, "q".data, [], []⟩),
               ("uuid-0".data, ⟨"uuid-0".data, "Plan".data, [], []⟩),
               ("uuid-1".data, ⟨"uuid-1".data, "plan".data, [], []⟩)]
             current_cell_id := some "initial".data
             metadata := [] }, 2) := by
  have h := C3_amended uuidSupply (V4.initialState "q".data) 0
    "- NEW CELL: Plan".data "- NEW CELL: plan".data " Plan".data " plan".data
    (by decide) (by decide) (by decide) (by decide) (by decide) (by decide)
    (by decide)
  rw [h]
  decide

/-! ## C4 — loop termination and the iteration budget -/

/-- When the response does not carry the SOLVED marker, the v10 iteration
always continues with some next state (it cannot return). -/
theorem solveStepWith_not_solved (llm : Str → Str) (state : V10.SystemState)
    (response mp : Str)
    (hm : containsStr (pyUpper response) "SOLVED".data = false) :
    ∃ st', (V10.solveStepWith llm state response mp).outcome = .next st' := by
  unfold V10.solveStepWith
  rw [if_neg (by rw [hm]; exact Bool.false_ne_true)]
  cases V10.tryParseState response with
  | ok st => exact ⟨st, rfl⟩
  | error issues =>
      dsimp only
      cases V10.tryParseState (llm (formatPy V10.correctionPromptText
          [("response".data, response), ("issues".data, issues)])) with
      | ok st2 => exact ⟨st2, rfl⟩
      | error i2 =>
          dsimp only
          cases V10.tryParseState (llm V10.fallbackPromptText) with
          | ok st3 => exact ⟨st3, rfl⟩
          | error i3 => exact ⟨_, rfl⟩

/-- Claim C4 counterexample: with a model that never signals completion (it
always answers `"CONTINUE"`), the v4 `while True` loop never returns, for
every fuel bound — there is no `max_iterations` terminal condition in the
code. -/
theorem C4_counterexample : V4.solveDiverges contLLM uuidSupply "q".data := by
  intro fuel
  induction fuel with
  | zero => rfl
  | succ n ih =>
      have hstep : V4.solveFuel contLLM uuidSupply (n + 1) (V4.initialState "q".data) 0
          = V4.solveFuel contLLM uuidSupply n (V4.initialState "q".data) 0 := rfl
      show V4.solveFuel contLLM uuidSupply (n + 1) (V4.initialState "q".data) 0 = none
      rw [hstep]
      exact ih

/-- Claim C4 (amended): neither solver has an iteration budget — the loops
terminate only via the completion marker: if no response of the model ever
contains `"STATUS: SOLVED"`, the v4 `solve` never returns a solution for
any fuel bound, and if no response ever contains `"SOLVED"` (case
insensitive), the v10 `solve` diverges outright. -/
theorem C4_amended :
    (∀ (llm : Str → Str) (uuids : Nat → Str) (query : Str),
       (∀ p, containsStr (llm p) "STATUS: SOLVED".data = false) →
       ∀ fuel r, V4.solve llm uuids query fuel ≠ some (.ok r))
    ∧ (∀ (llm : Str → Str) (query : Str),
       (∀ p, containsStr (pyUpper (llm p)) "SOLVED".data = false) →
       V10.solveDiverges llm query) := by
  constructor
  · intro llm uuids query hno
    have main : ∀ fuel st ctr r,
        V4.solveFuel llm uuids fuel st ctr ≠ some (.ok r) := by
      intro fuel
      induction fuel with
      | zero => intro st ctr r h; cases h
      | succ n ih =>
          intro st ctr r h
          rw [V4.solveFuel] at h
          simp only [hno, Bool.false_eq_true, if_false, ite_false] at h
          cases happly : V4.applyChanges uuids ctr st (llm (V4.iterationPrompt st)) with
          | error e => rw [happly] at h; simp at h
          | ok p =>
              rw [happly] at h
              exact ih p.1 p.2 r h
    exact fun fuel r => main fuel (V4.initialState query) 0 r
  · intro llm query hno
    have main : ∀ fuel st, V10.solveFuel llm fuel st = none := by
      intro fuel
      induction fuel with
      | zero => intro st; rfl
      | succ n ih =>
          intro st
          obtain ⟨st', hst'⟩ := solveStepWith_not_solved llm st
            (llm (V10.mainPromptText ++ "\nCurrent state:\n".data ++ V10.formatState st))
            (V10.mainPromptText ++ "\nCurrent state:\n".data ++ V10.formatState st)
            (hno _)
          have hst'' : (V10.solveStep llm st).outcome = .next st' := hst'
          rw [V10.solveFuel, hst'']
          exact ih st'
    exact fun fuel => main fuel (V10.initialState query)

/-- Claim C4 witness: the amended statement at concrete models that never
signal completion. -/
theorem C4_witness :
    V4.solve contLLM uuidSupply "q".data 3 ≠ some (.ok "x".data)
    ∧ V10.solve garbageLLM "g".data 2 = none :=
  ⟨C4_amended.1 contLLM uuidSupply "q".data (fun _ => rfl) 3 "x".data,
   C4_amended.2 garbageLLM "g".data (fun _ => rfl) 2⟩

/-! ## C5 — Complete short-circuits conflicting directives -/

/-- Claim C5 counterexample: on a response carrying the SOLVED marker
alongside structural edit tags, the v10 iteration does short-circuit and
discard the edits, but its warning record is empty — no warning is ever
recorded, contradicting "a warning is recorded". -/
theorem C5_counterexample :
    (V10.solveStep solvedEditLLM (V10.initialState "q".data)).outcome
      = .solved "SOLVED\nNEXT STATE:\nCELL: leftover edit\nEND STATE".data
    ∧ (V10.solveStep solvedEditLLM (V10.initialState "q".data)).warnings = [] := by
  constructor
  · decide
  · decide

/-- Claim C5 (amended): a response whose upper-casing contains `SOLVED`
short-circuits the iteration — the solver returns that response at once,
no co-occurring edit directive is applied (no parse is attempted, the state
is dropped unchanged and only the main prompt was issued) — but no warning
is recorded anywhere (the source has no warning mechanism). -/
theorem C5_amended (llm : Str → Str) (state : V10.SystemState)
    (response mp : Str)
    (hm : containsStr (pyUpper response) "SOLVED".data = true) :
    V10.solveStepWith llm state response mp =
      { outcome := .solved response, prompts := [(.main, mp)], warnings := [] } := by
  unfold V10.solveStepWith
  rw [if_pos hm]

/-- Claim C5 witness: the amended statement at a concrete conflicting
response. -/
theorem C5_witness :
    V10.solveStepWith solvedEditLLM (V10.initialState "q".data)
        "SOLVED\nNEXT STATE:\nCELL: leftover edit\nEND STATE".data "p".data
      = { outcome := .solved "SOLVED\nNEXT STATE:\nCELL: leftover edit\nEND STATE".data
          prompts := [(.main, "p".data)]
          warnings := [] } :=
  C5_amended solvedEditLLM (V10.initialState "q".data)
    "SOLVED\nNEXT STATE:\nCELL: leftover edit\nEND STATE".data "p".data (by decide)

/-! ## C6 — the recovery ladder and its correction budget -/

/-- Claim C6 counterexample: with a model whose responses never parse, one
v10 iteration issues the prompts `[main, correction, fallback]` — exactly
one correction re-prompt, not two, precedes the fallback prompt — and
`DEFAULT_SOLVER_CONFIG` has no `max_correction_attempts` key at all. -/
theorem C6_counterexample :
    ((V10.solveStep garbageLLM (V10.initialState "q".data)).prompts.map Prod.fst
      = [.main, .correction, .fallback])
    ∧ (((V10.solveStep garbageLLM (V10.initialState "q".data)).prompts.map
          Prod.fst).count .correction = 1)
    ∧ containsD V10.DEFAULT_SOLVER_CONFIG "max_correction_attempts".data = false := by
  refine ⟨by decide, by decide, by decide⟩

set_option maxRecDepth 100000 in
/-- Claim C6 (amended): after a parse failure the solver issues exactly one
correction re-prompt — which carries the offending response verbatim — and,
when that also fails to parse, immediately the fallback prompt: the prompt
trace of the iteration is `[main, correction, fallback]`, with a fixed
correction budget of one (no `max_correction_attempts` option exists). -/
theorem C6_amended (llm : Str → Str) (state : V10.SystemState)
    (response mp issues i2 : Str)
    (hm : containsStr (pyUpper response) "SOLVED".data = false)
    (hp : V10.tryParseState response = .error issues)
    (hc : V10.tryParseState (llm (formatPy V10.correctionPromptText
        [("response".data, response), ("issues".data, issues)])) = .error i2) :
    ((V10.solveStepWith llm state response mp).prompts.map Prod.fst
      = [.main, .correction, .fallback])
    ∧ ∃ u v, (V10.solveStepWith llm state response mp).prompts.get? 1
        = some (.correction, u ++ response ++ v) := by
  have hw : (V10.solveStepWith llm state response mp).prompts =
      [(.main, mp),
       (.correction, formatPy V10.correctionPromptText
          [("response".data, response), ("issues".data, issues)]),
       (.fallback, V10.fallbackPromptText)] := by
    unfold V10.solveStepWith
    rw [if_neg (by rw [hm]; exact Bool.false_ne_true), hp]
    dsimp only
    rw [hc]
    dsimp only
    cases V10.tryParseState (llm V10.fallbackPromptText) with
    | ok st3 => rfl
    | error i3 => rfl
  constructor
  · rw [hw]
    rfl
  · rw [hw]
    exact ⟨_, _, rfl⟩

/-- Claim C6 witness: the amended prompt trace at a concrete never-parsing
model. -/
theorem C6_witness :
    (V10.solveStepWith garbageLLM (V10.initialState "q".data)
        "total garbage".data "p".data).prompts.map Prod.fst
      = [.main, .correction, .fallback] :=
  (C6_amended garbageLLM (V10.initialState "q".data) "total garbage".data
    "p".data "Missing \x27NEXT STATE:\x27 marker".data
    "Missing \x27NEXT STATE:\x27 marker".data
    (by decide) (by decide) (by decide)).1

/-! ## C7 — history growth per iteration -/

/-- A completed `_analyze_current_state` appends exactly one entry and
touches nothing else. -/
theorem analyzeF_hist (llm : Str → Str) (wfuel : Nat) (state s1 : LG.SystemState)
    (h : LG.analyzeF llm wfuel state = some (.ok s1)) :
    ∃ a, s1 = { state with history := state.history ++ [.analysis a] } := by
  unfold LG.analyzeF at h
  cases hcur : lookupD state.nodes state.current_focus_id with
  | none => rw [hcur] at h; simp at h
  | some current =>
      rw [hcur] at h
      dsimp only at h
      cases hpath : LG.getPathToCurrent state wfuel with
      | none => rw [hpath] at h; cases h
      | some r =>
          rw [hpath] at h
          cases r with
          | error e => simp at h
          | ok path =>
              simp only at h
              injection h with h'
              injection h' with h''
              exact ⟨_, h''.symm⟩

/-- `_generate_content` appends exactly one generation entry with the LLM's
answer to the generation prompt of the current node. -/
theorem generateF_content (llm : Str → Str) (state : LG.SystemState)
    (cur : LG.ProjectNode)
    (hcur : lookupD state.nodes state.current_focus_id = some cur) :
    LG.generateF llm state =
      .ok { state with history :=
              state.history ++ [.generation (llm (LG.generatePromptText cur))] } := by
  unfold LG.generateF
  rw [hcur]

/-- When the history ends in a generation entry with non-empty (truthy)
content, `_parse_content` appends exactly one entry (with either parsing
status). -/
theorem parseF_hist (llm : Str → Str) (jsonLoads : Str → Option (List (Str × Str)))
    (st : LG.SystemState) (h0 : List LG.HEntry) (c : Str)
    (hh : st.history = h0 ++ [.generation c]) (hc : c ≠ []) :
    ∃ e, (LG.parseF llm jsonLoads st).history = st.history ++ [e] := by
  unfold LG.parseF
  have hfind : st.history.reverse.findSome? LG.getGen = some c := by
    rw [hh, List.reverse_append]
    rfl
  rw [hfind]
  dsimp only
  rw [if_neg hc]
  cases hj : jsonLoads c with
  | some parsed => exact ⟨.parsingOk parsed, rfl⟩
  | none => exact ⟨.parsingRecovered (llm (LG.recoveryPromptText c)), rfl⟩

/-- When the history ends in a generation entry with empty (falsy) content,
`_parse_content` returns the state unchanged: `if not last_generation:`
skips the append. -/
theorem parseF_skip (llm : Str → Str) (jsonLoads : Str → Option (List (Str × Str)))
    (st : LG.SystemState) (h0 : List LG.HEntry)
    (hh : st.history = h0 ++ [.generation []]) :
    LG.parseF llm jsonLoads st = st := by
  unfold LG.parseF
  have hfind : st.history.reverse.findSome? LG.getGen = some [] := by
    rw [hh, List.reverse_append]
    rfl
  rw [hfind]
  rfl

/-- A completed `_update_structure` appends nothing. -/
theorem updateF_hist (st s4 : LG.SystemState) (h : LG.updateF st = .ok s4) :
    s4.history = st.history := by
  unfold LG.updateF at h
  cases hfind : st.history.reverse.findSome? LG.getParsing with
  | none => rw [hfind] at h; injection h with h'; rw [← h']
  | some lp =>
      rw [hfind] at h
      cases lp with
      | inl d =>
          dsimp only at h
          by_cases hd : d = []
          · rw [if_pos hd] at h
            injection h with h'
            rw [← h']
          · rw [if_neg hd] at h
            cases hcur : lookupD st.nodes st.current_focus_id with
            | none => rw [hcur] at h; cases h
            | some current =>
                rw [hcur] at h
                dsimp only at h
                injection h with h'
                rw [← h']
      | inr s =>
          dsimp only at h
          by_cases hs : s = []
          · rw [if_pos hs] at h
            injection h with h'
            rw [← h']
          · rw [if_neg hs] at h
            cases hcur : lookupD st.nodes st.current_focus_id with
            | none => rw [hcur] at h; cases h
            | some current => rw [hcur] at h; cases h

/-- A completed `_propagate_summaries` appends nothing. -/
theorem propagateF_hist (llm : Str → Str) (wfuel : Nat) (st s5 : LG.SystemState)
    (h : LG.propagateF llm wfuel st = some (.ok s5)) :
    s5.history = st.history := by
  unfold LG.propagateF at h
  cases hcur : lookupD st.nodes st.current_focus_id with
  | none => rw [hcur] at h; simp at h
  | some current =>
      rw [hcur] at h
      simp only at h
      cases hloop : LG.propLoop llm wfuel
          (setD st.nodes st.current_focus_id
            (current.withSummary (llm (LG.nodeSummaryPromptText current))))
          current.parent_id with
      | none => rw [hloop] at h; cases h
      | some r =>
          rw [hloop] at h
          cases r with
          | error e => simp at h
          | ok nodes2 =>
              simp only at h
              injection h with h'
              injection h' with h''
              rw [← h'']

/-- Claim C7 counterexample: one completed pass of the graph cycle grows the
history from zero entries to three (analysis, generation, parsing) — not by
exactly one. -/
theorem C7_counterexample :
    (LG.cycleF lgLLM lgJson 5 (LG.createProject "g".data)).map
        (Except.map (fun s => s.history.length)) = some (.ok 3)
    ∧ (LG.cycleF lgLLM lgJson 5 (LG.createProject "g".data)).map
        (Except.map (fun s => s.history.length)) ≠ some (.ok 1) := by
  constructor
  · decide
  · decide

/-- Claim C7 (amended): a completed pass of the graph cycle appends exactly
three history entries — one analysis, one generation and one parsing entry —
when the LLM's generation output is non-empty; when it is the empty string,
`_parse_content`'s `if not last_generation:` truthiness guard skips the
parsing entry and the pass appends exactly two.  `_update_structure` and
`_propagate_summaries` append none either way. -/
theorem C7_amended (llm : Str → Str) (jsonLoads : Str → Option (List (Str × Str)))
    (wfuel : Nat) (state : LG.SystemState) (cur : LG.ProjectNode) (n : Nat)
    (hcur : lookupD state.nodes state.current_focus_id = some cur)
    (h : (LG.cycleF llm jsonLoads wfuel state).map
        (Except.map (fun s => s.history.length)) = some (.ok n)) :
    n = state.history.length +
      (if llm (LG.generatePromptText cur) = ([] : Str) then 2 else 3) := by
  unfold LG.cycleF at h
  cases ha : LG.analyzeF llm wfuel state with
  | none =>
      rw [ha] at h
      dsimp only [Option.map] at h
      cases h
  | some ra =>
      rw [ha] at h
      cases ra with
      | error e =>
          dsimp only [Option.map, Except.map] at h
          simp at h
      | ok s1 =>
          dsimp only at h
          cases hg : LG.generateF llm s1 with
          | error e =>
              rw [hg] at h
              dsimp only [Option.map, Except.map] at h
              simp at h
          | ok s2 =>
              rw [hg] at h
              dsimp only at h
              cases hu : LG.updateF (LG.parseF llm jsonLoads s2) with
              | error e =>
                  rw [hu] at h
                  dsimp only [Option.map, Except.map] at h
                  simp at h
              | ok s4 =>
                  rw [hu] at h
                  dsimp only at h
                  cases hp : LG.propagateF llm wfuel s4 with
                  | none =>
                      rw [hp] at h
                      dsimp only [Option.map] at h
                      cases h
                  | some rp =>
                      rw [hp] at h
                      cases rp with
                      | error e =>
                          dsimp only [Option.map, Except.map] at h
                          simp at h
                      | ok s5 =>
                          dsimp only [Option.map, Except.map] at h
                          injection h with h'
                          injection h' with h''
                          obtain ⟨a, hs1⟩ := analyzeF_hist llm wfuel state s1 ha
                          have hha : s1.history = state.history ++ [.analysis a] := by
                            rw [hs1]
                          have hcur1 : lookupD s1.nodes s1.current_focus_id = some cur := by
                            rw [hs1]; exact hcur
                          have hg' := generateF_content llm s1 cur hcur1
                          rw [hg] at hg'
                          injection hg' with hs2
                          have hhg : s2.history =
                              s1.history ++ [.generation (llm (LG.generatePromptText cur))] := by
                            rw [hs2]
                          have h4 := updateF_hist _ s4 hu
                          have h5 := propagateF_hist llm wfuel s4 s5 hp
                          by_cases hc : llm (LG.generatePromptText cur) = ([] : Str)
                          · have hskip : LG.parseF llm jsonLoads s2 = s2 :=
                              parseF_skip llm jsonLoads s2 s1.history (by rw [hhg, hc])
                            rw [← h'', h5, h4, hskip, hhg, hha, if_pos hc]
                            simp [List.length_append]
                          · obtain ⟨e, hhp⟩ :=
                              parseF_hist llm jsonLoads s2 s1.history _ hhg hc
                            rw [← h'', h5, h4, hhp, hhg, hha, if_neg hc]
                            simp [List.length_append]

/-- A model that always answers with the empty string (Python-falsy). -/
def emptyLLM : Str → Str := fun _ => []

/-- Claim C7 witness: the amended statement at two concrete runs — a
non-empty generation output (three entries) and an empty one (two). -/
theorem C7_witness :
    ((3 : Nat) = (LG.createProject "g2".data).history.length +
        (if lgLLM (LG.generatePromptText
              (.mk "root".data "g2".data [] [] [] none)) = ([] : Str)
         then 2 else 3))
    ∧ ((2 : Nat) = (LG.createProject "g3".data).history.length +
        (if emptyLLM (LG.generatePromptText
              (.mk "root".data "g3".data [] [] [] none)) = ([] : Str)
         then 2 else 3)) :=
  ⟨C7_amended lgLLM lgJson 4 (LG.createProject "g2".data)
      (.mk "root".data "g2".data [] [] [] none) 3 rfl (by decide),
   C7_amended emptyLLM lgJson 4 (LG.createProject "g3".data)
      (.mk "root".data "g3".data [] [] [] none) 2 rfl (by decide)⟩

/-! ## C8 — immutability of the input state -/

/-- A one-state heap for the C8 witness. -/
def c8Heap : List V4.SystemState := [V4.initialState "q".data]

/-- The state `_apply_changes` freshly builds for the C8 witness input. -/
def c8After : V4.SystemState :=
  { cells := [("initial".data, ⟨"initial".data, "q".data, [], []⟩),
              ("uuid-0".data, ⟨"uuid-0".data, "x".data, [], []⟩)]
    current_cell_id := some "initial".data
    metadata := [] }

/-- Claim C8: `_apply_changes` deep-copies and never mutates its input —
through the reference model, a successful apply leaves every existing heap
entry (in particular the caller's state object) untouched and hands back a
reference to a freshly allocated object, distinct from the caller's. -/
theorem C8_theorem (uuids : Nat → Str) (ctr : Nat) (heap : List V4.SystemState)
    (r : Nat) (response : Str) (heap' : List V4.SystemState) (r' ctr' : Nat)
    (h : V4.applyChangesRef uuids ctr heap r response = .ok (heap', r', ctr')) :
    (∀ i, i < heap.length → heap'.get? i = heap.get? i)
    ∧ r' = heap.length ∧ r' ≠ r := by
  unfold V4.applyChangesRef at h
  cases hget : heap.get? r with
  | none => rw [hget] at h; cases h
  | some state =>
      rw [hget] at h
      dsimp only at h
      cases happ : V4.applyChanges uuids ctr state response with
      | error e => rw [happ] at h; cases h
      | ok p =>
          rw [happ] at h
          cases p with
          | mk st' c' =>
              dsimp only at h
              injection h with h'
              injection h' with h1 h2
              injection h2 with h3 h4
              have hr : r < heap.length := by
                cases hlt : Nat.decLt r heap.length with
                | isTrue hh => exact hh
                | isFalse hh =>
                    have := List.get?_eq_none.mpr (Nat.le_of_not_lt hh)
                    rw [this] at hget
                    cases hget
              refine ⟨?_, ?_, ?_⟩
              · intro i hi
                rw [← h1]
                simp only [List.get?_eq_getElem?]
                exact List.getElem?_append_left hi
              · rw [← h3]
              · rw [← h3]
                exact fun hc => absurd (hc ▸ hr) (lt_irrefl _)

/-- Claim C8 witness: the reference-model statement at a concrete heap —
after applying a `NEW CELL`, slot 0 still holds the original state and the
returned reference is the fresh slot 1. -/
theorem C8_witness :
    V4.applyChangesRef uuidSupply 0 c8Heap 0 "- NEW CELL: x".data
      = .ok (c8Heap ++ [c8After], 1, 1)
    ∧ (c8Heap ++ [c8After]).get? 0 = c8Heap.get? 0
    ∧ (1 : Nat) ≠ 0 :=
  ⟨by decide,
   (C8_theorem uuidSupply 0 c8Heap 0 "- NEW CELL: x".data
      (c8Heap ++ [c8After]) 1 1 (by decide)).1 0 (by decide),
   (C8_theorem uuidSupply 0 c8Heap 0 "- NEW CELL: x".data
      (c8Heap ++ [c8After]) 1 1 (by decide)).2.2⟩

/-! ## C9 — the `TASK:` error-recovery branch of `parse_state` -/

/-- Non-`TASK:` lines leave the loop environment untouched (the other
branches are `pass` or unmatched). -/
theorem lineStep_skip (jsonLoads : Str → Option FP.TaskArgs) (uuids : Nat → Str)
    (st : FP.LoopSt) (l : Str) (h : FP.isTaskLine l = false) :
    FP.lineStep jsonLoads uuids st l = .ok st := by
  unfold FP.lineStep
  by_cases hb : pyStrip l = []
  · rw [if_pos hb]
  · rw [if_neg hb]
    have hn : isPre "TASK:".data (pyStrip l) = false := by
      unfold FP.isTaskLine at h
      simpa [hb] using h
    simp only [hn, Bool.false_eq_true, if_false, ite_false]

/-- A run of non-`TASK:` lines is skipped wholesale. -/
theorem processLines_skip_all (jsonLoads : Str → Option FP.TaskArgs)
    (uuids : Nat → Str) (st : FP.LoopSt) (pre rest : List Str)
    (h : ∀ l ∈ pre, FP.isTaskLine l = false) :
    FP.processLines jsonLoads uuids st (pre ++ rest)
      = FP.processLines jsonLoads uuids st rest := by
  induction pre with
  | nil => rfl
  | cons a t ih =>
      have ha := h a (List.mem_cons_self a t)
      show FP.processLines jsonLoads uuids st ((a :: t) ++ rest) = _
      simp only [List.cons_append, FP.processLines, List.foldlM,
        lineStep_skip jsonLoads uuids st a ha, except_ok_bind]
      exact ih (fun l hl => h l (List.mem_cons_of_mem a hl))

/-- With `cell_id` unbound, a `TASK:` line failing before the uuid
assignment makes the handler itself raise `NameError`. -/
theorem taskLine_fails_nameError (jsonLoads : Str → Option FP.TaskArgs)
    (uuids : Nat → Str) (st : FP.LoopSt) (l : Str)
    (hbound : st.bound = none)
    (htask : FP.isTaskLine l = true)
    (hfail : FP.taskLineFailsEarly jsonLoads l = true) :
    FP.lineStep jsonLoads uuids st l = .error .nameError := by
  have hcon : pyStrip l ≠ [] ∧ isPre "TASK:".data (pyStrip l) = true := by
    unfold FP.isTaskLine at htask
    simpa using htask
  unfold FP.taskLineFailsEarly at hfail
  cases ha : afterSep1 (pyStrip l) "\x7b".data with
  | none =>
      simp [FP.lineStep, FP.taskLineStep, FP.taskHandler,
        hcon.1, hcon.2, ha, hbound]
  | some after =>
      rw [ha] at hfail
      simp at hfail
      simp [FP.lineStep, FP.taskLineStep, FP.taskHandler,
        hcon.1, hcon.2, ha, hfail, hbound]

/-- A `TASK:` line whose argument text parses as JSON binds `cell_id` to a
fresh uuid and — because `create_task` always raises `TypeError` — stores
an error cell under that id via the handler. -/
theorem taskLine_binds (jsonLoads : Str → Option FP.TaskArgs) (uuids : Nat → Str)
    (st : FP.LoopSt) (l after : Str) (args : FP.TaskArgs)
    (htask : FP.isTaskLine l = true)
    (ha : afterSep1 (pyStrip l) "\x7b".data = some after)
    (hj : jsonLoads ("\x7b".data ++ after) = some args) :
    FP.lineStep jsonLoads uuids st l =
      .ok ⟨setD st.cells (uuids st.ctr)
             (.text ("Error creating task: ".data ++ errText .typeError)),
           some (uuids st.ctr), st.ctr + 1⟩ := by
  have hcon : pyStrip l ≠ [] ∧ isPre "TASK:".data (pyStrip l) = true := by
    unfold FP.isTaskLine at htask
    simpa using htask
  simp only [List.singleton_append] at hj
  simp [FP.lineStep, FP.taskLineStep, FP.taskHandler, FP.createTask,
    hcon.1, hcon.2, ha, hj]

/-- With `cell_id` bound by an earlier `TASK:` line, a later failing
`TASK:` line silently overwrites that earlier cell with its own error
text. -/
theorem taskLine_fails_overwrites (jsonLoads : Str → Option FP.TaskArgs)
    (uuids : Nat → Str) (st : FP.LoopSt) (l cid : Str)
    (hbound : st.bound = some cid)
    (htask : FP.isTaskLine l = true)
    (hfail : FP.taskLineFailsEarly jsonLoads l = true) :
    FP.lineStep jsonLoads uuids st l =
      .ok ⟨setD st.cells cid
             (.text ("Error creating task: ".data ++ errText .indexError)),
           st.bound, st.ctr⟩
    ∨ FP.lineStep jsonLoads uuids st l =
      .ok ⟨setD st.cells cid
             (.text ("Error creating task: ".data ++ errText .jsonDecodeError)),
           st.bound, st.ctr⟩ := by
  have hcon : pyStrip l ≠ [] ∧ isPre "TASK:".data (pyStrip l) = true := by
    unfold FP.isTaskLine at htask
    simpa using htask
  unfold FP.taskLineFailsEarly at hfail
  cases ha : afterSep1 (pyStrip l) "\x7b".data with
  | none =>
      left
      simp [FP.lineStep, FP.taskLineStep, FP.taskHandler,
        hcon.1, hcon.2, ha, hbound]
  | some after =>
      rw [ha] at hfail
      simp at hfail
      right
      simp [FP.lineStep, FP.taskLineStep, FP.taskHandler,
        hcon.1, hcon.2, ha, hfail, hbound]

/-- Claim C9: the `TASK:` error-recovery branch of `parse_state` is not
total.  First part: for every response (with the `NEXT STATE:` marker)
whose first `TASK:` line fails JSON parsing, the `except` handler evaluates
the unbound local `cell_id` and `parse_state` raises `NameError` instead of
returning a `Left` parse failure.  Second part: once an earlier `TASK:`
line has bound `cell_id` (and stored its own handler cell there), a later
failing `TASK:` line silently overwrites that very cell — the loop ends
with the single overwritten cell and no error. -/
theorem C9_theorem :
    (∀ (jsonLoads : Str → Option FP.TaskArgs) (uuids : Nat → Str)
       (response : Str) (pre post : List Str) (l : Str),
       containsStr response "NEXT STATE:".data = true →
       pyLines (FP.stateTextOf response) = pre ++ l :: post →
       (∀ l' ∈ pre, FP.isTaskLine l' = false) →
       FP.isTaskLine l = true →
       FP.taskLineFailsEarly jsonLoads l = true →
       FP.parseState jsonLoads uuids response = .error .nameError)
    ∧ (∀ (jsonLoads : Str → Option FP.TaskArgs) (uuids : Nat → Str)
         (pre mid : List Str) (l1 l2 after : Str) (args : FP.TaskArgs),
         (∀ l' ∈ pre, FP.isTaskLine l' = false) →
         (∀ l' ∈ mid, FP.isTaskLine l' = false) →
         FP.isTaskLine l1 = true →
         afterSep1 (pyStrip l1) "\x7b".data = some after →
         jsonLoads ("\x7b".data ++ after) = some args →
         FP.isTaskLine l2 = true →
         FP.taskLineFailsEarly jsonLoads l2 = true →
         (FP.processLines jsonLoads uuids ⟨[], none, 0⟩ (pre ++ l1 :: (mid ++ [l2]))
            = .ok ⟨[(uuids 0, .text ("Error creating task: ".data
                      ++ errText .indexError))], some (uuids 0), 1⟩
          ∨ FP.processLines jsonLoads uuids ⟨[], none, 0⟩ (pre ++ l1 :: (mid ++ [l2]))
              = .ok ⟨[(uuids 0, .text ("Error creating task: ".data
                        ++ errText .jsonDecodeError))], some (uuids 0), 1⟩)) := by
  constructor
  · intro jsonLoads uuids response pre post l hmarker hlines hpre htask hfail
    unfold FP.parseState
    rw [if_pos hmarker, hlines, processLines_skip_all jsonLoads uuids _ pre _ hpre]
    have hstep := taskLine_fails_nameError jsonLoads uuids ⟨[], none, 0⟩ l rfl htask hfail
    simp only [FP.processLines, List.foldlM, hstep]
    rfl
  · intro jsonLoads uuids pre mid l1 l2 after args hpre hmid htask1 ha hj htask2 hfail
    rw [processLines_skip_all jsonLoads uuids _ pre _ hpre]
    have hstep1 := taskLine_binds jsonLoads uuids ⟨[], none, 0⟩ l1 after args htask1 ha hj
    have hrw : FP.processLines jsonLoads uuids ⟨[], none, 0⟩ (l1 :: (mid ++ [l2]))
        = FP.processLines jsonLoads uuids
            ⟨[(uuids 0, .text ("Error creating task: ".data ++ errText .typeError))],
             some (uuids 0), 1⟩ (mid ++ [l2]) := by
      simp only [FP.processLines, List.foldlM, hstep1, except_ok_bind]
      rfl
    rw [hrw, processLines_skip_all jsonLoads uuids _ mid _ hmid]
    have hstep2 := taskLine_fails_overwrites jsonLoads uuids
      ⟨[(uuids 0, .text ("Error creating task: ".data ++ errText .typeError))],
       some (uuids 0), 1⟩ l2 (uuids 0) rfl htask2 hfail
    have hsetD : ∀ (c : FP.CellC),
        setD [(uuids 0, FP.CellC.text ("Error creating task: ".data ++ errText .typeError))]
          (uuids 0) c = [(uuids 0, c)] := by
      intro c
      simp [setD, containsD]
    cases hstep2 with
    | inl h2 =>
        left
        simp only [FP.processLines, List.foldlM, h2, except_ok_bind]
        rw [hsetD]
        rfl
    | inr h2 =>
        right
        simp only [FP.processLines, List.foldlM, h2, except_ok_bind]
        rw [hsetD]
        rfl

/-- A `json.loads` stand-in that rejects everything (C9 witness). -/
def fpNone : Str → Option FP.TaskArgs := fun _ => none

/-- A `json.loads` stand-in accepting exactly the witness's argument text. -/
def fpOnce : Str → Option FP.TaskArgs := fun s =>
  if s = "\x7b\"d\": 1\x7d".data then some ⟨"d".data, 1, []⟩ else none

/-- Claim C9 witness: both parts at concrete inputs — a lone malformed
`TASK:` line makes `parse_state` raise `NameError`, and a parsed-then-failed
pair of `TASK:` lines ends with the first handler cell overwritten. -/
theorem C9_witness :
    FP.parseState fpNone uuidSupply "NEXT STATE:\nTASK: nobrace\nEND STATE".data
      = .error .nameError
    ∧ (FP.processLines fpOnce uuidSupply ⟨[], none, 0⟩
          ["TASK: \x7b\"d\": 1\x7d".data, "TASK: nobrace".data]
        = .ok ⟨[(uuidSupply 0, .text ("Error creating task: ".data
                  ++ errText .indexError))], some (uuidSupply 0), 1⟩
       ∨ FP.processLines fpOnce uuidSupply ⟨[], none, 0⟩
            ["TASK: \x7b\"d\": 1\x7d".data, "TASK: nobrace".data]
          = .ok ⟨[(uuidSupply 0, .text ("Error creating task: ".data
                    ++ errText .jsonDecodeError))], some (uuidSupply 0), 1⟩) :=
  ⟨C9_theorem.1 fpNone uuidSupply "NEXT STATE:\nTASK: nobrace\nEND STATE".data
     [[]] [[]] "TASK: nobrace".data
     (by decide) (by decide) (by decide) (by decide) (by decide),
   C9_theorem.2 fpOnce uuidSupply [] [] "TASK: \x7b\"d\": 1\x7d".data
     "TASK: nobrace".data "\"d\": 1\x7d".data ⟨"d".data, 1, []⟩
     (by decide) (by decide) (by decide) (by decide) (by decide) (by decide)
     (by decide)⟩

/-! ## C10 — termination of the parent-chain walks -/

/-- `done` is a fixed point of the walk step. -/
theorem walkStep_done (nodes : List (Str × LG.ProjectNode)) (m : Nat) :
    (LG.walkStep nodes)^[m] .done = .done :=
  Function.iterate_fixed rfl m

/-- `fail` is a fixed point of the walk step. -/
theorem walkStep_fail (nodes : List (Str × LG.ProjectNode)) (m : Nat) :
    (LG.walkStep nodes)^[m] .fail = .fail :=
  Function.iterate_fixed rfl m

/-- `withSummary` does not touch the parent pointer. -/
theorem withSummary_parent (nd : LG.ProjectNode) (s : Str) :
    (nd.withSummary s).parent_id = nd.parent_id := by
  cases nd
  rfl

/-- Once the chain hits an absorbing non-`run` walk state, it stays there. -/
theorem chainSt_absorb (state : LG.SystemState) (w : LG.WalkSt)
    (hfix : LG.walkStep state.nodes w = w) (k m : Nat)
    (hk : LG.chainSt state k = w) : LG.chainSt state (k + m) = w := by
  unfold LG.chainSt at hk ⊢
  rw [Nat.add_comm, Function.iterate_add_apply, hk]
  exact Function.iterate_fixed hfix m

/-- Under a reachable parent-chain cycle, the chain never reaches any
absorbing walk state (neither `done` nor `fail`). -/
theorem chain_cycle_avoid (state : LG.SystemState) (h : LG.HasCycle state)
    (w : LG.WalkSt) (hfix : LG.walkStep state.nodes w = w)
    (hw : ∀ c', w ≠ .run c') : ∀ k, LG.chainSt state k ≠ w := by
  obtain ⟨i, j, c, hij, hi, hj⟩ := h
  have shift : ∀ q, LG.chainSt state (i + q) = LG.chainSt state (j + q) := by
    intro q
    unfold LG.chainSt
    rw [Nat.add_comm i q, Nat.add_comm j q, Function.iterate_add_apply,
      Function.iterate_add_apply]
    unfold LG.chainSt at hi hj
    rw [hi, hj]
  intro k
  induction k using Nat.strong_induction_on with
  | _ k ih =>
      intro hk
      rcases le_or_lt k i with hki | hik
      · have : LG.chainSt state i = w := by
          have := chainSt_absorb state w hfix k (i - k) hk
          rwa [Nat.add_sub_cancel' hki] at this
        rw [hi] at this
        exact hw c this.symm
      · rcases le_or_lt k j with hkj | hjk
        · have : LG.chainSt state j = w := by
            have := chainSt_absorb state w hfix k (j - k) hk
            rwa [Nat.add_sub_cancel' hkj] at this
          rw [hj] at this
          exact hw c this.symm
        · have hq : k = j + (k - j) := (Nat.add_sub_cancel' (Nat.le_of_lt hjk)).symm
          have hk' : LG.chainSt state (i + (k - j)) = w := by
            rw [shift (k - j), ← hq]
            exact hk
          have hlt : i + (k - j) < k := by omega
          exact ih (i + (k - j)) hlt hk'

/-- One step of the walk from a truthy position with a present node moves
to the node's parent. -/
theorem walkStep_mkSt (nodes : List (Str × LG.ProjectNode)) (cur : Option Str)
    (node : LG.ProjectNode)
    (ht : truthyOpt cur = true)
    (hl : lookupD nodes (cur.getD []) = some node) :
    LG.walkStep nodes (LG.mkSt cur) = LG.mkSt node.parent_id := by
  unfold LG.mkSt
  rw [if_pos ht]
  unfold LG.walkStep
  dsimp only
  rw [hl]

/-- A successful `get_path_to_current` walk means the chain reaches `done`. -/
theorem pathWalkAux_ok_chain (nodes : List (Str × LG.ProjectNode)) :
    ∀ (fuel : Nat) (cur : Option Str) (acc p : List LG.ProjectNode),
      LG.pathWalkAux nodes fuel cur acc = some (.ok p) →
      ∃ k, k ≤ fuel ∧ (LG.walkStep nodes)^[k] (LG.mkSt cur) = .done := by
  intro fuel
  induction fuel with
  | zero =>
      intro cur acc p h
      unfold LG.pathWalkAux at h
      cases ht : truthyOpt cur with
      | false =>
          refine ⟨0, Nat.le_refl 0, ?_⟩
          unfold LG.mkSt
          rw [if_neg (by rw [ht]; exact Bool.false_ne_true)]
          rfl
      | true =>
          rw [if_pos ht] at h
          cases h
  | succ f ih =>
      intro cur acc p h
      unfold LG.pathWalkAux at h
      cases ht : truthyOpt cur with
      | false =>
          refine ⟨0, Nat.zero_le _, ?_⟩
          unfold LG.mkSt
          rw [if_neg (by rw [ht]; exact Bool.false_ne_true)]
          rfl
      | true =>
          rw [if_pos ht] at h
          cases hl : lookupD nodes (cur.getD []) with
          | none => rw [hl] at h; cases h
          | some node =>
              rw [hl] at h
              obtain ⟨k, hk, hdone⟩ := ih node.parent_id (node :: acc) p h
              refine ⟨k + 1, Nat.succ_le_succ hk, ?_⟩
              rw [Function.iterate_succ_apply, walkStep_mkSt nodes cur node ht hl]
              exact hdone

/-- When the chain reaches `done` in `k` steps, the walk completes with
fuel `k`. -/
theorem chain_done_pathWalk (nodes : List (Str × LG.ProjectNode)) :
    ∀ (k : Nat) (cur : Option Str) (acc : List LG.ProjectNode),
      (LG.walkStep nodes)^[k] (LG.mkSt cur) = .done →
      ∃ p, LG.pathWalkAux nodes k cur acc = some (.ok p) := by
  intro k
  induction k with
  | zero =>
      intro cur acc h
      cases ht : truthyOpt cur with
      | false =>
          refine ⟨acc, ?_⟩
          unfold LG.pathWalkAux
          rw [if_neg (by rw [ht]; exact Bool.false_ne_true)]
      | true =>
          exfalso
          unfold LG.mkSt at h
          rw [if_pos ht] at h
          cases h
  | succ f ih =>
      intro cur acc h
      cases ht : truthyOpt cur with
      | false =>
          refine ⟨acc, ?_⟩
          unfold LG.pathWalkAux
          rw [if_neg (by rw [ht]; exact Bool.false_ne_true)]
      | true =>
          cases hl : lookupD nodes (cur.getD []) with
          | none =>
              exfalso
              have hfailstep : LG.walkStep nodes (LG.mkSt cur) = .fail := by
                unfold LG.mkSt
                rw [if_pos ht]
                unfold LG.walkStep
                dsimp only
                rw [hl]
              rw [Function.iterate_succ_apply, hfailstep, walkStep_fail] at h
              cases h
          | some node =>
              rw [Function.iterate_succ_apply, walkStep_mkSt nodes cur node ht hl] at h
              obtain ⟨p, hp⟩ := ih node.parent_id (node :: acc) h
              refine ⟨p, ?_⟩
              unfold LG.pathWalkAux
              rw [if_pos ht, hl]
              exact hp

/-- When the chain never reaches an absorbing state, the walk never
finishes (for any fuel). -/
theorem pathWalkAux_diverges (nodes : List (Str × LG.ProjectNode)) :
    ∀ (fuel : Nat) (cur : Option Str) (acc : List LG.ProjectNode),
      (∀ k, (LG.walkStep nodes)^[k] (LG.mkSt cur) ≠ .done
            ∧ (LG.walkStep nodes)^[k] (LG.mkSt cur) ≠ .fail) →
      LG.pathWalkAux nodes fuel cur acc = none := by
  intro fuel
  induction fuel with
  | zero =>
      intro cur acc h
      cases ht : truthyOpt cur with
      | false =>
          exfalso
          refine (h 0).1 ?_
          unfold LG.mkSt
          rw [if_neg (by rw [ht]; exact Bool.false_ne_true)]
          rfl
      | true =>
          unfold LG.pathWalkAux
          rw [if_pos ht]
  | succ f ih =>
      intro cur acc h
      cases ht : truthyOpt cur with
      | false =>
          exfalso
          refine (h 0).1 ?_
          unfold LG.mkSt
          rw [if_neg (by rw [ht]; exact Bool.false_ne_true)]
          rfl
      | true =>
          unfold LG.pathWalkAux
          rw [if_pos ht]
          cases hl : lookupD nodes (cur.getD []) with
          | none =>
              exfalso
              refine (h 1).2 ?_
              rw [Function.iterate_one]
              unfold LG.mkSt
              rw [if_pos ht]
              unfold LG.walkStep
              dsimp only
              rw [hl]
          | some node =>
              show LG.pathWalkAux nodes f node.parent_id (node :: acc) = none
              refine ih node.parent_id (node :: acc) ?_
              intro k
              have hshift : (LG.walkStep nodes)^[k] (LG.mkSt node.parent_id)
                  = (LG.walkStep nodes)^[k + 1] (LG.mkSt cur) := by
                rw [Function.iterate_succ_apply, walkStep_mkSt nodes cur node ht hl]
              rw [hshift]
              exact h (k + 1)

/-- A successful lookup means the key is present. -/
theorem lookupD_some_contains {α : Type} (d : List (Str × α)) (k : Str) (v : α)
    (h : lookupD d k = some v) : containsD d k = true := by
  unfold lookupD at h
  cases hf : d.find? (fun p => p.1 = k) with
  | none => rw [hf] at h; cases h
  | some q =>
      have hq := List.find?_some hf
      have hmem := List.mem_of_find?_eq_some hf
      exact (List.any_eq_true).mpr ⟨q, hmem, hq⟩

/-- Replacing the values stored under one key leaves lookups of every other
key unchanged. -/
theorem lookupD_map_other {α : Type} (t : List (Str × α)) (nid k : Str) (v : α)
    (hne : k ≠ nid) :
    lookupD (t.map (fun p => if p.1 = nid then (nid, v) else p)) k
      = lookupD t k := by
  induction t with
  | nil => rfl
  | cons b t ih =>
      unfold lookupD at ih ⊢
      dsimp only [List.map]
      by_cases hbn : b.1 = nid
      · rw [if_pos hbn]
        rw [List.find?_cons, List.find?_cons]
        have h1 : (decide ((nid, v).1 = k)) = false := by
          simp
          exact fun hh => hne hh.symm
        have h2 : (decide (b.1 = k)) = false := by
          simp
          rw [hbn]
          exact fun hh => hne hh.symm
        rw [h1, h2]
        exact ih
      · rw [if_neg hbn]
        rw [List.find?_cons, List.find?_cons]
        cases hb : decide (b.1 = k) with
        | true => rfl
        | false => exact ih

/-- Updating a node's summary in place changes no parent pointer and no key
presence: the walks read the same structure. -/
theorem parentView_setD_summary (nodes : List (Str × LG.ProjectNode))
    (nid : Str) (nd : LG.ProjectNode) (s : Str)
    (hl : lookupD nodes nid = some nd) (k : Str) :
    LG.parentView (setD nodes nid (nd.withSummary s)) k
      = LG.parentView nodes k := by
  have hc : containsD nodes nid = true := lookupD_some_contains nodes nid nd hl
  unfold LG.parentView setD
  rw [if_pos hc]
  by_cases hkn : k = nid
  · subst hkn
    -- both lookups hit the first entry keyed `k`
    clear hc
    induction nodes with
    | nil => cases hl
    | cons a t ih =>
        unfold lookupD at hl ⊢
        dsimp only [List.map]
        rw [List.find?_cons, List.find?_cons] at *
        by_cases hak : a.1 = k
        · have hfa : (decide ((k, LG.ProjectNode.withSummary nd s).1 = k)) = true := by simp
          have hfa2 : (decide (a.1 = k)) = true := by simp [hak]
          rw [if_pos hak, hfa, hfa2]
          rw [hfa2] at hl
          simp only [Option.map_some'] at hl ⊢
          injection hl with hl'
          rw [withSummary_parent, hl']
        · have hfa2 : (decide (a.1 = k)) = false := by simp [hak]
          rw [if_neg hak, hfa2]
          rw [hfa2] at hl
          exact ih hl
  · rw [lookupD_map_other nodes nid k (nd.withSummary s) hkn]

/-- Under a chain that never halts, the `_propagate_summaries` loop never
finishes, whatever the in-flight summary updates did to the node values. -/
theorem propLoop_diverges (llm : Str → Str) (nodes : List (Str × LG.ProjectNode)) :
    ∀ (fuel : Nat) (nodes' : List (Str × LG.ProjectNode)) (cur : Option Str),
      (∀ k, LG.parentView nodes' k = LG.parentView nodes k) →
      (∀ k, (LG.walkStep nodes)^[k] (LG.mkSt cur) ≠ .done
            ∧ (LG.walkStep nodes)^[k] (LG.mkSt cur) ≠ .fail) →
      LG.propLoop llm fuel nodes' cur = none := by
  intro fuel
  induction fuel with
  | zero =>
      intro nodes' cur hpv h
      cases ht : truthyOpt cur with
      | false =>
          exfalso
          refine (h 0).1 ?_
          unfold LG.mkSt
          rw [if_neg (by rw [ht]; exact Bool.false_ne_true)]
          rfl
      | true =>
          unfold LG.propLoop
          rw [if_pos ht]
  | succ f ih =>
      intro nodes' cur hpv h
      cases ht : truthyOpt cur with
      | false =>
          exfalso
          refine (h 0).1 ?_
          unfold LG.mkSt
          rw [if_neg (by rw [ht]; exact Bool.false_ne_true)]
          rfl
      | true =>
          unfold LG.propLoop
          rw [if_pos ht]
          cases hl' : lookupD nodes' (cur.getD []) with
          | none =>
              exfalso
              have hpvc : LG.parentView nodes (cur.getD []) = none := by
                rw [← hpv]
                unfold LG.parentView
                rw [hl']
                rfl
              have hln : lookupD nodes (cur.getD []) = none := by
                unfold LG.parentView at hpvc
                cases hx : lookupD nodes (cur.getD []) with
                | none => rfl
                | some nb => rw [hx] at hpvc; cases hpvc
              refine (h 1).2 ?_
              rw [Function.iterate_one]
              unfold LG.mkSt
              rw [if_pos ht]
              unfold LG.walkStep
              dsimp only
              rw [hln]
          | some parent =>
              dsimp only
              have hpvc : LG.parentView nodes (cur.getD []) = some parent.parent_id := by
                rw [← hpv]
                unfold LG.parentView
                rw [hl']
                rfl
              obtain ⟨nodeB, hlB, hpar⟩ : ∃ nb, lookupD nodes (cur.getD []) = some nb
                  ∧ nb.parent_id = parent.parent_id := by
                unfold LG.parentView at hpvc
                cases hx : lookupD nodes (cur.getD []) with
                | none => rw [hx] at hpvc; cases hpvc
                | some nb =>
                    rw [hx] at hpvc
                    simp only [Option.map_some'] at hpvc
                    injection hpvc with hpvc'
                    exact ⟨nb, rfl, hpvc'⟩
              refine ih _ parent.parent_id ?_ ?_
              · intro k2
                rw [parentView_setD_summary nodes' (cur.getD []) parent
                  (llm (LG.parentSummaryPromptText parent)) hl' k2]
                exact hpv k2
              · intro k2
                have hstep : LG.walkStep nodes (LG.mkSt cur) = LG.mkSt parent.parent_id := by
                  rw [walkStep_mkSt nodes cur nodeB ht hlB, hpar]
                have hsh : (LG.walkStep nodes)^[k2] (LG.mkSt parent.parent_id)
                    = (LG.walkStep nodes)^[k2 + 1] (LG.mkSt cur) := by
                  rw [Function.iterate_succ_apply, hstep]
                rw [hsh]
                exact h (k2 + 1)

/-- Under a reachable parent-chain cycle, `_propagate_summaries` diverges:
its walk neither finishes nor crashes, for any fuel. -/
theorem propagateF_cycle_diverges (state : LG.SystemState) (llm : Str → Str)
    (wfuel : Nat) (hcyc : LG.HasCycle state) :
    LG.propagateF llm wfuel state = none := by
  have avoidD := chain_cycle_avoid state hcyc .done rfl (fun c' hh => by cases hh)
  have avoidF := chain_cycle_avoid state hcyc .fail rfl (fun c' hh => by cases hh)
  have avoid : ∀ k, LG.chainSt state k ≠ .done ∧ LG.chainSt state k ≠ .fail :=
    fun k => ⟨avoidD k, avoidF k⟩
  have ht : truthyOpt (some state.current_focus_id) = true := by
    cases htt : truthyOpt (some state.current_focus_id) with
    | true => rfl
    | false =>
        exfalso
        refine (avoid 0).1 ?_
        unfold LG.chainSt
        rw [Function.iterate_zero_apply]
        unfold LG.mkSt
        rw [if_neg (by rw [htt]; exact Bool.false_ne_true)]
  cases hcur : lookupD state.nodes state.current_focus_id with
  | none =>
      exfalso
      refine (avoid 1).2 ?_
      unfold LG.chainSt
      rw [Function.iterate_one]
      unfold LG.mkSt
      rw [if_pos ht]
      unfold LG.walkStep
      dsimp only
      rw [show lookupD state.nodes ((some state.current_focus_id).getD []) = none
        from hcur]
  | some current =>
      unfold LG.propagateF
      rw [hcur]
      dsimp only
      rw [show LG.propLoop llm wfuel
          (setD state.nodes state.current_focus_id
            (current.withSummary (llm (LG.nodeSummaryPromptText current))))
          current.parent_id = none from ?loop]
      case loop =>
        refine propLoop_diverges llm state.nodes wfuel _ current.parent_id ?_ ?_
        · intro k2
          exact parentView_setD_summary state.nodes state.current_focus_id current
            (llm (LG.nodeSummaryPromptText current)) hcur k2
        · intro k2
          have hstep : LG.walkStep state.nodes (LG.mkSt (some state.current_focus_id))
              = LG.mkSt current.parent_id :=
            walkStep_mkSt state.nodes (some state.current_focus_id) current ht hcur
          have hsh : (LG.walkStep state.nodes)^[k2] (LG.mkSt current.parent_id)
              = LG.chainSt state (k2 + 1) := by
            unfold LG.chainSt
            rw [Function.iterate_succ_apply, hstep]
          rw [hsh]
          exact avoid (k2 + 1)

/-- Claim C10: the parent-chain walk of `get_path_to_current` returns a path
for some fuel exactly when the parent chain from the focus reaches a node
with no (truthy) parent, every id on the way present — and on a state whose
parent chain contains a cycle neither that walk nor the identical walk in
`_propagate_summaries` ever terminates (no fuel suffices; neither returns
nor raises `KeyError`). -/
theorem C10_theorem (state : LG.SystemState) (llm : Str → Str) :
    ((∃ fuel p, LG.getPathToCurrent state fuel = some (.ok p))
       ↔ LG.ChainTerminates state)
    ∧ (LG.HasCycle state →
        (∀ fuel, LG.getPathToCurrent state fuel = none)
        ∧ (∀ wfuel, LG.propagateF llm wfuel state = none)) := by
  constructor
  · constructor
    · rintro ⟨fuel, p, h⟩
      obtain ⟨k, _, hdone⟩ :=
        pathWalkAux_ok_chain state.nodes fuel (some state.current_focus_id) [] p h
      exact ⟨k, hdone⟩
    · rintro ⟨k, hdone⟩
      obtain ⟨p, hp⟩ :=
        chain_done_pathWalk state.nodes k (some state.current_focus_id) [] hdone
      exact ⟨k, p, hp⟩
  · intro hcyc
    have avoidD := chain_cycle_avoid state hcyc .done rfl (fun c' hh => by cases hh)
    have avoidF := chain_cycle_avoid state hcyc .fail rfl (fun c' hh => by cases hh)
    constructor
    · intro fuel
      exact pathWalkAux_diverges state.nodes fuel (some state.current_focus_id) []
        (fun k => ⟨avoidD k, avoidF k⟩)
    · intro wfuel
      exact propagateF_cycle_diverges state llm wfuel hcyc

/-- A two-node parent cycle (`a ↔ b`) with the focus on `a`. -/
def cycState : LG.SystemState :=
  { nodes := [("a".data, .mk "a".data "ga".data [] [] [] (some "b".data)),
              ("b".data, .mk "b".data "gb".data [] [] [] (some "a".data))]
    current_focus_id := "a".data
    history := [] }

/-- Claim C10 witness: on the concrete two-node cycle neither
`get_path_to_current` nor `_propagate_summaries` terminates. -/
theorem C10_witness :
    LG.getPathToCurrent cycState 5 = none
    ∧ LG.propagateF lgLLM 7 cycState = none :=
  have hcyc : LG.HasCycle cycState :=
    ⟨0, 2, "a".data, by decide, by decide, by decide⟩
  ⟨((C10_theorem cycState lgLLM).2 hcyc).1 5,
   ((C10_theorem cycState lgLLM).2 hcyc).2 7⟩

end Carnot
